import Mathlib

/-!
# qr-code-generator: record store and request handlers

A shallow embedding of `internal/storage/sqlite.go`, `internal/qrcode/generator.go`
and `internal/handler/handler.go`.

The database engine, the driver and the barcode encoder are libraries outside the
repository.  The engine is embedded as the table `qr_codes` together with the
`sqlite_sequence` counter of its AUTOINCREMENT key, and each SQL statement of the
source as a function on that state.  What the surroundings decide is passed in
explicitly: the value of `CURRENT_TIMESTAMP` (whole seconds), and for every call
into the driver an `Option String` that is `none` when the driver executes the
statement and `some msg` when it gives up with an error of that text (I/O
failure, lock timeout, closed handle).  Go errors are embedded as their message.
-/

deriving instance DecidableEq for Except

namespace storage

/-- Largest value of a Go `int64`, which is also the largest rowid the engine issues. -/
def maxInt64 : Int := 9223372036854775807

/-- The Go struct `QRCode`; the two `time.Time` fields are seconds. -/
structure QRCode where
  ID : Int
  Content : String
  Label : String
  ImageData : List UInt8
  CreatedAt : Nat
  UpdatedAt : Nat
  deriving DecidableEq, Repr

/-- One row of table `qr_codes` as `migrate` declares it.  `content` and
`image_data` are NOT NULL; `label` and the two timestamps always receive a
value, because every INSERT and UPDATE of the source binds a Go string to `label`
and the timestamps come from `CURRENT_TIMESTAMP`. -/
structure Row where
  id : Int
  content : String
  label : String
  image_data : List UInt8
  created_at : Nat
  updated_at : Nat
  deriving DecidableEq, Repr

/-- The database behind `Store.db`: the rows of `qr_codes` and the
`sqlite_sequence` entry of the table, the largest rowid issued so far. -/
structure DB where
  rows : List Row
  seq : Nat
  deriving DecidableEq, Repr

/-- The Go struct `Store`. -/
structure Store where
  db : DB
  deriving DecidableEq, Repr

/-- A `sql.Result` of the driver: both numbers are reported without error. -/
structure Result where
  lastInsertId : Int
  rowsAffected : Int
  deriving DecidableEq, Repr

/-- Method `LastInsertId` of `sql.Result`. -/
def Result.LastInsertId (r : Result) : Except String Int := .ok r.lastInsertId

/-- Method `RowsAffected` of `sql.Result`. -/
def Result.RowsAffected (r : Result) : Except String Int := .ok r.rowsAffected

/-- The error of `QueryRow(...).Scan`: the sentinel `sql.ErrNoRows`, or an error
of the driver. -/
inductive ScanError where
  | ErrNoRows
  | driver (msg : String)
  deriving DecidableEq, Repr

/-- Go `Scan` of the six selected columns into the fields of a `QRCode`. -/
def Row.Scan (r : Row) : QRCode :=
  { ID := r.id, Content := r.content, Label := r.label, ImageData := r.image_data,
    CreatedAt := r.created_at, UpdatedAt := r.updated_at }

/-- The largest rowid that ever existed in the table: the larger of the
`sqlite_sequence` entry and the rowids present. -/
def DB.lastRowid (db : DB) : Int :=
  db.rows.foldl (fun m r => max m r.id) (db.seq : Int)

/-- Go `New` on a path that holds no database yet: `migrate` creates the empty table. -/
def New : Store := { db := { rows := [], seq := 0 } }

/-- The row an INSERT adds: the rowid one above the largest that ever existed, the
bound values, and `CURRENT_TIMESTAMP` as the default of both timestamp columns. -/
def DB.newRow (db : DB) (now : Nat) (content label : String) (bytes : List UInt8) : Row :=
  { id := db.lastRowid + 1, content := content, label := label, image_data := bytes,
    created_at := now, updated_at := now }

/-- The database after an INSERT: the new row, and its rowid in `sqlite_sequence`. -/
def DB.inserted (db : DB) (now : Nat) (content label : String) (bytes : List UInt8) : DB :=
  { rows := db.rows ++ [db.newRow now content label bytes], seq := (db.lastRowid + 1).toNat }

/-- Statement `INSERT INTO qr_codes (content, label, image_data) VALUES (?, ?, ?)`.
An AUTOINCREMENT key fails with SQLITE_FULL when the largest possible rowid has
existed.  A nil `[]byte` (`none`) is bound as NULL and violates
`image_data BLOB NOT NULL`; an empty slice that is not nil is an empty blob. -/
def DB.execInsert (db : DB) (now : Nat) (fault : Option String)
    (content label : String) (imageData : Option (List UInt8)) :
    Except String Result × DB :=
  match fault with
  | some e => (.error e, db)
  | none =>
    if maxInt64 ≤ db.lastRowid then (.error "database or disk is full (13)", db)
    else
      match imageData with
      | none =>
        (.error "constraint failed: NOT NULL constraint failed: qr_codes.image_data (1299)", db)
      | some bytes =>
        (.ok { lastInsertId := db.lastRowid + 1, rowsAffected := 1 },
         db.inserted now content label bytes)

/-- Statement `SELECT id, content, label, image_data, created_at, updated_at FROM qr_codes
WHERE id = ?` read by `QueryRow(...).Scan`: the first row with that key. -/
def DB.queryRowByID (db : DB) (fault : Option String) (id : Int) : Except ScanError QRCode :=
  match fault with
  | some e => .error (.driver e)
  | none =>
    match db.rows.find? (fun r => r.id = id) with
    | none => .error .ErrNoRows
    | some r => .ok r.Scan

/-- The order in which the index `idx_created_at` on `created_at DESC` delivers
the rows: later `created_at` first, rows of one second by ascending rowid. -/
def idxCreatedAt (a b : Row) : Prop :=
  b.created_at < a.created_at ∨ (a.created_at = b.created_at ∧ a.id ≤ b.id)

instance : DecidableRel idxCreatedAt := fun a b =>
  inferInstanceAs (Decidable (b.created_at < a.created_at ∨
    (a.created_at = b.created_at ∧ a.id ≤ b.id)))

instance : IsTotal Row idxCreatedAt where
  total a b := by
    unfold idxCreatedAt
    omega

instance : IsTrans Row idxCreatedAt where
  trans a b c := by
    unfold idxCreatedAt
    omega

/-- Statement `SELECT ... FROM qr_codes ORDER BY created_at DESC LIMIT ? OFFSET ?`.  A
negative OFFSET counts as zero. -/
def DB.queryList (db : DB) (fault : Option String) (limit offset : Int) :
    Except String (List Row) :=
  match fault with
  | some e => .error e
  | none => .ok (((db.rows.insertionSort idxCreatedAt).drop offset.toNat).take limit.toNat)

/-- The records of the store in listing order. -/
def Store.ordered (s : Store) : List QRCode :=
  (s.db.rows.insertionSort idxCreatedAt).map Row.Scan

/-- Statement `UPDATE qr_codes SET label = ?, updated_at = CURRENT_TIMESTAMP WHERE id = ?`. -/
def DB.execUpdateLabel (db : DB) (now : Nat) (fault : Option String)
    (label : String) (id : Int) : Except String Result × DB :=
  match fault with
  | some e => (.error e, db)
  | none =>
    (.ok { lastInsertId := db.seq, rowsAffected := (db.rows.filter (fun r => r.id = id)).length },
     { db with rows := db.rows.map (fun r =>
         if r.id = id then { r with label := label, updated_at := now } else r) })

/-- Statement `DELETE FROM qr_codes WHERE id = ?`.  The `sqlite_sequence` entry stays. -/
def DB.execDelete (db : DB) (fault : Option String) (id : Int) : Except String Result × DB :=
  match fault with
  | some e => (.error e, db)
  | none =>
    (.ok { lastInsertId := db.seq, rowsAffected := (db.rows.filter (fun r => r.id = id)).length },
     { db with rows := db.rows.filter (fun r => ¬ r.id = id) })

/-- Method `Store.GetByID`: `(nil, nil)` is `.ok none`. -/
def Store.GetByID (s : Store) (fault : Option String) (id : Int) :
    Except String (Option QRCode) :=
  match s.db.queryRowByID fault id with
  | .error .ErrNoRows => .ok none
  | .error (.driver e) => .error ("failed to get qr code: " ++ e)
  | .ok qr => .ok (some qr)

/-- Method `Store.Create`.  `execFault` belongs to the INSERT, `queryFault` to the
SELECT of the closing `GetByID`. -/
def Store.Create (s : Store) (now : Nat) (execFault queryFault : Option String)
    (content label : String) (imageData : Option (List UInt8)) :
    Except String (Option QRCode) × Store :=
  match s.db.execInsert now execFault content label imageData with
  | (.error e, db) => (.error ("failed to insert qr code: " ++ e), { db := db })
  | (.ok result, db) =>
    match result.LastInsertId with
    | .error e => (.error ("failed to get last insert id: " ++ e), { db := db })
    | .ok id => (Store.GetByID { db := db } queryFault id, { db := db })

/-- The loop of `Store.List` over the rows of the result: each row is scanned into
a `QRCode` and appended to `codes`.  `scanFault` is the error `rows.Scan` reports
for a row, `none` when it scans. -/
def scanRows (scanFault : Row → Option String) : List Row → List QRCode →
    Except String (List QRCode)
  | [], codes => .ok codes
  | r :: rows, codes =>
    match scanFault r with
    | some e => .error ("failed to scan qr code: " ++ e)
    | none => scanRows scanFault rows (codes ++ [r.Scan])

/-- Method `Store.List`.  `fault` belongs to the query, `scanFault` to the `Scan`
of each row, and `rowsErr` is what `rows.Err()` reports after the loop. -/
def Store.List (s : Store) (fault : Option String) (scanFault : Row → Option String)
    (rowsErr : Option String) (limit offset : Int) : Except String (List QRCode) :=
  let limit := if limit ≤ 0 then 50 else limit
  match s.db.queryList fault limit offset with
  | .error e => .error ("failed to list qr codes: " ++ e)
  | .ok rows =>
    match scanRows scanFault rows [] with
    | .error e => .error e
    | .ok codes =>
      match rowsErr with
      | some e => .error e
      | none => .ok codes

/-- Method `Store.UpdateLabel`: `nil` is `.ok ()`. -/
def Store.UpdateLabel (s : Store) (now : Nat) (fault : Option String) (id : Int)
    (label : String) : Except String Unit × Store :=
  match s.db.execUpdateLabel now fault label id with
  | (.error e, db) => (.error ("failed to update label: " ++ e), { db := db })
  | (.ok result, db) =>
    match result.RowsAffected with
    | .error e => (.error ("failed to get rows affected: " ++ e), { db := db })
    | .ok rows =>
      if rows = 0 then (.error "qr code not found", { db := db })
      else (.ok (), { db := db })

/-- Method `Store.Delete`: `nil` is `.ok ()`. -/
def Store.Delete (s : Store) (fault : Option String) (id : Int) : Except String Unit × Store :=
  match s.db.execDelete fault id with
  | (.error e, db) => (.error ("failed to delete qr code: " ++ e), { db := db })
  | (.ok result, db) =>
    match result.RowsAffected with
    | .error e => (.error ("failed to get rows affected: " ++ e), { db := db })
    | .ok rows =>
      if rows = 0 then (.error "qr code not found", { db := db })
      else (.ok (), { db := db })

/-- The table respects its key: no two rows share a rowid, and none exceeds the
`sqlite_sequence` entry. -/
def DB.WF (db : DB) : Prop :=
  (∀ r ∈ db.rows, r.id ≤ (db.seq : Int)) ∧ (db.rows.map (fun r => r.id)).Nodup

/-- One call on the store, with everything the surroundings decide for it. -/
inductive Op where
  | create (now : Nat) (execFault queryFault : Option String) (content label : String)
      (imageData : Option (List UInt8))
  | updateLabel (now : Nat) (fault : Option String) (id : Int) (label : String)
  | delete (fault : Option String) (id : Int)
  deriving DecidableEq, Repr

/-- The call reports the row it adds: a `Create` whose INSERT the driver executes
also has its closing SELECT executed.  The other calls add no row. -/
def Op.reported : Op → Bool
  | .create _ execFault queryFault _ _ _ => execFault.isSome || queryFault.isNone
  | .updateLabel _ _ _ _ => true
  | .delete _ _ => true

/-- The id of the record a `Create` returned, `none` when it returned an error. -/
def returnedID : Except String (Option QRCode) → Option Int
  | .ok (some qr) => some qr.ID
  | _ => none

/-- Performs one call; the first component is the id of the record a `Create`
returned, `none` for a `Create` that returned an error and for the other calls. -/
def Op.call (s : Store) : Op → Option Int × Store
  | .create now execFault queryFault content label imageData =>
    (returnedID (s.Create now execFault queryFault content label imageData).1,
     (s.Create now execFault queryFault content label imageData).2)
  | .updateLabel now fault id label => (none, (s.UpdateLabel now fault id label).2)
  | .delete fault id => (none, (s.Delete fault id).2)

/-- Performs the calls in order; the first component lists, in call order, the
ids of the records the `Create` calls returned. -/
def run : Store → List Op → List Int × Store
  | s, [] => ([], s)
  | s, op :: ops => ((op.call s).1.toList ++ (run (op.call s).2 ops).1, (run (op.call s).2 ops).2)

end storage

namespace unicode

/-- Go `unicode.IsSpace`: the Latin-1 spaces and the code points of category Z
and property Pattern_White_Space. -/
def IsSpace (c : Char) : Bool :=
  let n := c.toNat
  n = 0x09 || n = 0x0a || n = 0x0b || n = 0x0c || n = 0x0d || n = 0x20 || n = 0x85 || n = 0xa0 ||
  n = 0x1680 || (0x2000 ≤ n && n ≤ 0x200a) || n = 0x2028 || n = 0x2029 || n = 0x202f ||
  n = 0x205f || n = 0x3000

end unicode

namespace strings

/-- Go `strings.TrimSpace`: the string without its leading and trailing white space. -/
def TrimSpace (s : String) : String :=
  String.mk ((s.data.dropWhile unicode.IsSpace).reverse.dropWhile unicode.IsSpace).reverse

/-- Go `strings.Contains`: `substr` occurs within `s`. -/
def Contains (s substr : String) : Bool :=
  decide (substr.data <:+: s.data)

end strings

namespace strconv

/-- The two error kinds of a `strconv.NumError`. -/
inductive NumError where
  | ErrSyntax
  | ErrRange
  deriving DecidableEq, Repr

/-- A decimal digit, `0` to `9`. -/
def isDigit (c : Char) : Bool := decide (48 ≤ c.toNat) && decide (c.toNat ≤ 57)

/-- The digit loop of `ParseUint` for base 10 and 64 bits: `n` is the value of the
digits read so far. -/
def parseUintLoop : List Char → Nat → Except NumError Nat
  | [], n => .ok n
  | c :: cs, n =>
    if isDigit c then
      if 18446744073709551615 / 10 + 1 ≤ n then .error .ErrRange
      else if 18446744073709551615 < n * 10 + (c.toNat - 48) then .error .ErrRange
      else parseUintLoop cs (n * 10 + (c.toNat - 48))
    else .error .ErrSyntax

/-- Go `strconv.ParseUint(s, 10, 64)`. -/
def ParseUint (s : List Char) : Except NumError Nat :=
  if s = [] then .error .ErrSyntax else parseUintLoop s 0

/-- Go `strconv.ParseInt(s, 10, 64)`. -/
def ParseInt (s : String) : Except NumError Int :=
  match s.data with
  | [] => .error .ErrSyntax
  | c :: cs =>
    let neg := decide (c = '-')
    let digits := if c = '+' ∨ c = '-' then cs else c :: cs
    match ParseUint digits with
    | .error e => .error e
    | .ok un =>
      if ¬ neg ∧ 9223372036854775808 ≤ un then .error .ErrRange
      else if neg ∧ 9223372036854775808 < un then .error .ErrRange
      else .ok (if neg then - (un : Int) else (un : Int))

/-- The number a run of decimal digits denotes. -/
def decimalValue (digits : List Char) : Nat :=
  digits.foldl (fun n c => n * 10 + (c.toNat - 48)) 0

/-- A valid integer, as the contract of the handlers uses the words: an optional
sign followed by one or more decimal digits, denoting a number a 64-bit signed
integer holds. -/
def validInteger (s : String) : Bool :=
  match s.data with
  | [] => false
  | c :: cs =>
    let digits := if c = '+' ∨ c = '-' then cs else c :: cs
    !digits.isEmpty && digits.all isDigit &&
      (if c = '-' then decide (decimalValue digits ≤ 9223372036854775808)
       else decide (decimalValue digits ≤ 9223372036854775807))

/-- The integer a valid integer denotes. -/
def integerValue (s : String) : Int :=
  match s.data with
  | [] => 0
  | c :: cs =>
    if c = '-' then - (decimalValue cs : Int)
    else if c = '+' then (decimalValue cs : Int)
    else (decimalValue (c :: cs) : Int)

end strconv

namespace qr

/-- The recovery levels of the encoder library. -/
inductive RecoveryLevel where
  | Low
  | Medium
  | High
  | Highest
  deriving DecidableEq, Repr

/-- The library function `qr.Encode(content, level, size)`: PNG bytes or an error.
It is a parameter of everything that encodes. -/
abbrev Encoder := String → RecoveryLevel → Int → Except String (Option (List UInt8))

end qr

namespace qrcode

def DefaultSize : Int := 256

def ThumbnailSize : Int := 64

def RecoveryLevel : qr.RecoveryLevel := qr.RecoveryLevel.Medium

/-- The Go struct `Generator`. -/
structure Generator where
  size : Int
  deriving DecidableEq, Repr

def New : Generator := { size := DefaultSize }

/-- Method `Generator.Generate`. -/
def Generator.Generate (g : Generator) (Encode : qr.Encoder) (content : String) :
    Except String (Option (List UInt8)) :=
  if content = "" then .error "content cannot be empty"
  else
    match Encode content RecoveryLevel g.size with
    | .error e => .error ("failed to generate qr code: " ++ e)
    | .ok png => .ok png

/-- Method `Generator.GenerateWithSize`. -/
def Generator.GenerateWithSize (_g : Generator) (Encode : qr.Encoder) (content : String)
    (size : Int) : Except String (Option (List UInt8)) :=
  if content = "" then .error "content cannot be empty"
  else
    let size := if size ≤ 0 then DefaultSize else size
    match Encode content RecoveryLevel size with
    | .error e => .error ("failed to generate qr code: " ++ e)
    | .ok png => .ok png

end qrcode

namespace http

def StatusOK : Nat := 200
def StatusSeeOther : Nat := 303
def StatusBadRequest : Nat := 400
def StatusNotFound : Nat := 404
def StatusInternalServerError : Nat := 500

/-- What a handler wrote: text, or the bytes handed to `Write`. -/
inductive Body where
  | text (s : String)
  | bytes (b : List UInt8)
  deriving DecidableEq, Repr

/-- What a handler left in its `ResponseWriter`. -/
structure Response where
  Code : Nat
  Header : List (String × String)
  Body : Body
  deriving DecidableEq, Repr

/-- The parts of a `*http.Request` the handlers read: what `ParseForm` yields, the
wildcards of the matched route, and what decoding the body as JSON into
`struct { Label string }` yields. -/
structure Request where
  ParseForm : Except String (List (String × List String))
  PathValues : List (String × String)
  DecodeLabel : Except String String

/-- Go `url.Values.Get`, which `FormValue` returns once the form is parsed: the first
value of the key, or the empty string. -/
def FormValue (form : List (String × List String)) (key : String) : String :=
  match form.lookup key with
  | some (v :: _) => v
  | _ => ""

/-- Go `Request.PathValue`. -/
def Request.PathValue (r : Request) (name : String) : String :=
  (r.PathValues.lookup name).getD ""

/-- Go `http.Error` on a writer that nothing was written to. -/
def Error (error : String) (code : Nat) : Response :=
  { Code := code,
    Header := [("Content-Type", "text/plain; charset=utf-8"), ("X-Content-Type-Options", "nosniff")],
    Body := .text (error ++ "\n") }

/-- Go `http.Redirect` answering a POST: the `Location` header and no body. -/
def Redirect (url : String) (code : Nat) : Response :=
  { Code := code, Header := [("Location", url)], Body := .text "" }

end http

namespace handler

/-- A call a handler makes on one of its two collaborators. -/
inductive Call where
  | Generate (content : String)
  | Create (content label : String) (imageData : Option (List UInt8))
  | GetByID (id : Int)
  | UpdateLabel (id : Int) (label : String)
  | Delete (id : Int)
  deriving DecidableEq, Repr

/-- The Go struct `Handler` without its templates. -/
structure Handler where
  store : storage.Store
  generator : qrcode.Generator
  deriving DecidableEq, Repr

/-- What one request leaves behind: the response, the store, and the calls made
on generator and store, in order. -/
structure Outcome where
  resp : http.Response
  store : storage.Store
  calls : List Call
  deriving DecidableEq, Repr

/-- The response `json.NewEncoder(w).Encode(map[string]string{"status": "ok"})`
leaves after `Content-Type` was set. -/
def statusOK : http.Response :=
  { Code := http.StatusOK, Header := [("Content-Type", "application/json")],
    Body := .text "\x7b\"status\":\"ok\"\x7d\n" }

/-- Method `Handler.handleGenerate`. -/
def Handler.handleGenerate (h : Handler) (Encode : qr.Encoder) (now : Nat)
    (execFault queryFault : Option String) (r : http.Request) : Outcome :=
  match r.ParseForm with
  | .error _ => ⟨http.Error "Invalid form data" http.StatusBadRequest, h.store, []⟩
  | .ok form =>
    let content := strings.TrimSpace (http.FormValue form "content")
    if content = "" then ⟨http.Error "Content is required" http.StatusBadRequest, h.store, []⟩
    else
      match h.generator.Generate Encode content with
      | .error _ =>
        ⟨http.Error "Failed to generate QR code" http.StatusInternalServerError, h.store,
          [.Generate content]⟩
      | .ok imageData =>
        match h.store.Create now execFault queryFault content "" imageData with
        | (.error _, store) =>
          ⟨http.Error "Failed to save QR code" http.StatusInternalServerError, store,
            [.Generate content, .Create content "" imageData]⟩
        | (.ok _, store) =>
          ⟨http.Redirect "/" http.StatusSeeOther, store,
            [.Generate content, .Create content "" imageData]⟩

/-- Method `Handler.handleGetQR`. -/
def Handler.handleGetQR (h : Handler) (fault : Option String) (r : http.Request) : Outcome :=
  let idStr := r.PathValue "id"
  match strconv.ParseInt idStr with
  | .error _ => ⟨http.Error "Invalid ID" http.StatusBadRequest, h.store, []⟩
  | .ok id =>
    match h.store.GetByID fault id with
    | .error _ =>
      ⟨http.Error "Failed to get QR code" http.StatusInternalServerError, h.store, [.GetByID id]⟩
    | .ok none => ⟨http.Error "QR code not found" http.StatusNotFound, h.store, [.GetByID id]⟩
    | .ok (some qr) =>
      ⟨{ Code := http.StatusOK,
         Header := [("Content-Type", "image/png"),
                    ("Content-Disposition", "inline; filename=\"qr-" ++ idStr ++ ".png\"")],
         Body := .bytes qr.ImageData }, h.store, [.GetByID id]⟩

/-- Method `Handler.handleUpdateLabel`. -/
def Handler.handleUpdateLabel (h : Handler) (now : Nat) (fault : Option String)
    (r : http.Request) : Outcome :=
  let idStr := r.PathValue "id"
  match strconv.ParseInt idStr with
  | .error _ => ⟨http.Error "Invalid ID" http.StatusBadRequest, h.store, []⟩
  | .ok id =>
    match r.DecodeLabel with
    | .error _ => ⟨http.Error "Invalid JSON" http.StatusBadRequest, h.store, []⟩
    | .ok label =>
      match h.store.UpdateLabel now fault id label with
      | (.error err, store) =>
        if strings.Contains err "not found" then
          ⟨http.Error "QR code not found" http.StatusNotFound, store, [.UpdateLabel id label]⟩
        else
          ⟨http.Error "Failed to update label" http.StatusInternalServerError, store,
            [.UpdateLabel id label]⟩
      | (.ok _, store) => ⟨statusOK, store, [.UpdateLabel id label]⟩

/-- Method `Handler.handleDelete`. -/
def Handler.handleDelete (h : Handler) (fault : Option String) (r : http.Request) : Outcome :=
  let idStr := r.PathValue "id"
  match strconv.ParseInt idStr with
  | .error _ => ⟨http.Error "Invalid ID" http.StatusBadRequest, h.store, []⟩
  | .ok id =>
    match h.store.Delete fault id with
    | (.error err, store) =>
      if strings.Contains err "not found" then
        ⟨http.Error "QR code not found" http.StatusNotFound, store, [.Delete id]⟩
      else
        ⟨http.Error "Failed to delete QR code" http.StatusInternalServerError, store, [.Delete id]⟩
    | (.ok _, store) => ⟨statusOK, store, [.Delete id]⟩

/-- One request to a route that touches the store, with everything the
surroundings decide while it is served. -/
inductive Served where
  | generate (Encode : qr.Encoder) (now : Nat) (execFault queryFault : Option String)
      (r : http.Request)
  | getQR (fault : Option String) (r : http.Request)
  | updateLabel (now : Nat) (fault : Option String) (r : http.Request)
  | delete (fault : Option String) (r : http.Request)

/-- Serves one request: the handler afterwards, holding the store the request left. -/
def Handler.serve (h : Handler) : Served → Handler
  | .generate Encode now execFault queryFault r =>
    { h with store := (h.handleGenerate Encode now execFault queryFault r).store }
  | .getQR fault r => { h with store := (h.handleGetQR fault r).store }
  | .updateLabel now fault r => { h with store := (h.handleUpdateLabel now fault r).store }
  | .delete fault r => { h with store := (h.handleDelete fault r).store }

/-- Serves the requests in order. -/
def Handler.serveAll (h : Handler) (reqs : List Served) : Handler :=
  reqs.foldl Handler.serve h

/-- The invariant of the data model on the rows of a store: every record has a
non-empty content.  That its imageData is not NULL is the type of `image_data`,
which the INSERT upholds by refusing a NULL. -/
def recordsValid (s : storage.Store) : Prop :=
  ∀ row ∈ s.db.rows, row.content ≠ ""

end handler

/-! ## The record store -/

namespace storage

theorem foldl_max_ge (l : List Row) (m : Int) :
    m ≤ l.foldl (fun m r => max m r.id) m := by
  induction l generalizing m with
  | nil => simp
  | cons a l ih =>
    simp only [List.foldl_cons]
    exact le_trans (le_max_left m a.id) (ih _)

theorem foldl_max_ge_mem (l : List Row) (m : Int) (r : Row) (hr : r ∈ l) :
    r.id ≤ l.foldl (fun m r => max m r.id) m := by
  induction l generalizing m with
  | nil => simp at hr
  | cons a l ih =>
    simp only [List.foldl_cons]
    rcases List.mem_cons.mp hr with h | h
    · subst h
      exact le_trans (le_max_right m r.id) (foldl_max_ge l _)
    · exact ih _ h

theorem foldl_max_le (l : List Row) (m b : Int) (hm : m ≤ b) (hl : ∀ r ∈ l, r.id ≤ b) :
    l.foldl (fun m r => max m r.id) m ≤ b := by
  induction l generalizing m with
  | nil => simpa using hm
  | cons a l ih =>
    simp only [List.foldl_cons]
    exact ih _ (max_le hm (hl a (List.mem_cons_self _ _)))
      (fun r hr => hl r (List.mem_cons_of_mem _ hr))

theorem seq_le_lastRowid (db : DB) : (db.seq : Int) ≤ db.lastRowid :=
  foldl_max_ge db.rows _

theorem lastRowid_nonneg (db : DB) : 0 ≤ db.lastRowid :=
  le_trans (Int.ofNat_nonneg _) (seq_le_lastRowid db)

theorem id_le_lastRowid (db : DB) (r : Row) (hr : r ∈ db.rows) : r.id ≤ db.lastRowid :=
  foldl_max_ge_mem db.rows _ r hr

theorem find?_inserted (db : DB) (now : Nat) (content label : String) (bytes : List UInt8) :
    (db.inserted now content label bytes).rows.find? (fun r => r.id = db.lastRowid + 1)
      = some (db.newRow now content label bytes) := by
  have hnone : db.rows.find? (fun r => decide (r.id = db.lastRowid + 1)) = none := by
    rw [List.find?_eq_none]
    intro r hr
    have := id_le_lastRowid db r hr
    simp only [decide_eq_true_eq]
    omega
  simp [DB.inserted, List.find?_append, hnone, DB.newRow]

/-- What `Create` does when the driver executes the INSERT. -/
theorem Create_eq (s : Store) (now : Nat) (queryFault : Option String)
    (content label : String) (imageData : Option (List UInt8)) :
    s.Create now none queryFault content label imageData =
      if maxInt64 ≤ s.db.lastRowid then
        (.error "failed to insert qr code: database or disk is full (13)", s)
      else
        match imageData with
        | none => (.error ("failed to insert qr code: " ++
            "constraint failed: NOT NULL constraint failed: qr_codes.image_data (1299)"), s)
        | some bytes =>
          (Store.GetByID { db := s.db.inserted now content label bytes } queryFault
              (s.db.lastRowid + 1),
           { db := s.db.inserted now content label bytes }) := by
  unfold Store.Create DB.execInsert
  by_cases h : maxInt64 ≤ s.db.lastRowid
  · simp only [h, if_true]
    rfl
  · cases imageData with
    | none => simp only [h, if_false]
    | some bytes => simp only [h, if_false, Result.LastInsertId]

theorem GetByID_inserted (db : DB) (now : Nat) (content label : String) (bytes : List UInt8) :
    Store.GetByID { db := db.inserted now content label bytes } none (db.lastRowid + 1)
      = .ok (some (db.newRow now content label bytes).Scan) := by
  have h := find?_inserted db now content label bytes
  simp only [Store.GetByID, DB.queryRowByID, h]

/-- What `Create` does when the driver executes both statements and the INSERT
goes through. -/
theorem Create_ok (s : Store) (now : Nat) (content label : String) (bytes : List UInt8)
    (h : s.db.lastRowid < maxInt64) :
    s.Create now none none content label (some bytes) =
      (.ok (some (s.db.newRow now content label bytes).Scan),
       { db := s.db.inserted now content label bytes }) := by
  rw [Create_eq, if_neg (not_le.mpr h)]
  simp only [GetByID_inserted]

/-- A record `GetByID` returns carries the id that was asked for. -/
theorem GetByID_some_ID (s : Store) (fault : Option String) (id : Int) (qr : QRCode)
    (h : s.GetByID fault id = .ok (some qr)) : qr.ID = id := by
  unfold Store.GetByID DB.queryRowByID at h
  cases fault with
  | some e => simp at h
  | none =>
    simp only at h
    cases hf : s.db.rows.find? (fun r => decide (r.id = id)) with
    | none => simp [hf] at h
    | some r =>
      simp only [hf, Except.ok.injEq, Option.some.injEq] at h
      have := List.find?_some hf
      subst h
      simpa [Row.Scan] using this

/-- Function `GetByID` answers absent exactly for an id no row carries. -/
theorem GetByID_eq_none_iff (s : Store) (id : Int) :
    s.GetByID none id = .ok none ↔ ∀ r ∈ s.db.rows, r.id ≠ id := by
  unfold Store.GetByID DB.queryRowByID
  cases hf : s.db.rows.find? (fun r => decide (r.id = id)) with
  | none =>
    simp only [true_iff]
    intro r hr
    have := List.find?_eq_none.mp hf r hr
    simpa using this
  | some r =>
    have hp := List.find?_some hf
    constructor
    · intro h
      simp at h
    · intro h
      exact absurd (by simpa using hp) (h r (List.mem_of_find?_eq_some hf))

/-- C1 (amended).  In every store that can still issue a rowid, for every content,
label and non-nil imageData, with the driver executing both statements:
`Create` returns a record with a non-zero id and the given content and label, and
a following `GetByID` of that id returns a present record with the same content
whose imageData are exactly the bytes supplied, hence non-empty exactly when the
supplied bytes are. -/
theorem Create_then_GetByID (s : Store) (now : Nat) (content label : String)
    (bytes : List UInt8) (h : s.db.lastRowid < maxInt64) :
    ∃ r, (s.Create now none none content label (some bytes)).1 = .ok (some r) ∧
      r.ID ≠ 0 ∧ r.Content = content ∧ r.Label = label ∧
      ∃ r', (s.Create now none none content label (some bytes)).2.GetByID none r.ID
              = .ok (some r') ∧
        r'.Content = content ∧ r'.ImageData = bytes ∧ (r'.ImageData ≠ [] ↔ bytes ≠ []) := by
  rw [Create_ok s now content label bytes h]
  refine ⟨(s.db.newRow now content label bytes).Scan, rfl, ?_, rfl, rfl, ?_⟩
  · have := lastRowid_nonneg s.db
    simp only [Row.Scan, DB.newRow]
    omega
  · refine ⟨(s.db.newRow now content label bytes).Scan, ?_, rfl, rfl, Iff.rfl⟩
    exact GetByID_inserted s.db now content label bytes

theorem Create_then_GetByID_witness :
    New.db.lastRowid < maxInt64 ∧
    ∃ r, (New.Create 0 none none "https://example.com" "Test Label" (some [116, 101])).1
          = .ok (some r) ∧
      r.ID ≠ 0 ∧ r.Content = "https://example.com" ∧ r.Label = "Test Label" ∧
      ∃ r', (New.Create 0 none none "https://example.com" "Test Label"
              (some [116, 101])).2.GetByID none r.ID = .ok (some r') ∧
        r'.Content = "https://example.com" ∧ r'.ImageData = [116, 101] ∧
        (r'.ImageData ≠ [] ↔ ([116, 101] : List UInt8) ≠ []) :=
  ⟨by decide, Create_then_GetByID New 0 "https://example.com" "Test Label" [116, 101] (by decide)⟩

/-- C1 as stated fails.  With an empty imageData that is not nil, `Create` stores
the record and `GetByID` returns it with empty imageData; with a nil imageData,
and in a store whose largest rowid is the largest `int64`, `Create` returns an
error and no record. -/
theorem Create_empty_image_counterexample :
    (New.Create 0 none none "x" "" (some [])).1 = .ok (some ⟨1, "x", "", [], 0, 0⟩) ∧
    (New.Create 0 none none "x" "" (some [])).2.GetByID none 1
      = .ok (some ⟨1, "x", "", [], 0, 0⟩) ∧
    (New.Create 0 none none "x" "" none).1
      = .error ("failed to insert qr code: " ++
          "constraint failed: NOT NULL constraint failed: qr_codes.image_data (1299)") ∧
    (Store.Create ⟨⟨[], 9223372036854775807⟩⟩ 0 none none "x" "" (some [1])).1
      = .error "failed to insert qr code: database or disk is full (13)" := by
  refine ⟨by rfl, by rfl, by rfl, by rfl⟩

end storage

namespace storage

/-! ### Sequences of calls -/

theorem UpdateLabel_store (s : Store) (now : Nat) (fault : Option String) (id : Int)
    (label : String) :
    (s.UpdateLabel now fault id label).2 =
      match fault with
      | some _ => s
      | none => { db := { s.db with rows := s.db.rows.map (fun r =>
          if r.id = id then { r with label := label, updated_at := now } else r) } } := by
  unfold Store.UpdateLabel DB.execUpdateLabel
  cases fault with
  | some e => rfl
  | none =>
    simp only [Result.RowsAffected]
    split <;> rfl

theorem Delete_store (s : Store) (fault : Option String) (id : Int) :
    (s.Delete fault id).2 =
      match fault with
      | some _ => s
      | none => { db := { s.db with rows := s.db.rows.filter (fun r => ¬ r.id = id) } } := by
  unfold Store.Delete DB.execDelete
  cases fault with
  | some e => rfl
  | none =>
    simp only [Result.RowsAffected]
    split <;> rfl

theorem Create_store (s : Store) (now : Nat) (execFault queryFault : Option String)
    (content label : String) (imageData : Option (List UInt8)) :
    (s.Create now execFault queryFault content label imageData).2 = s ∧
      (s.Create now execFault queryFault content label imageData).1 ≠ .ok none ∧
      (∀ qr, (s.Create now execFault queryFault content label imageData).1 ≠ .ok (some qr)) ∨
    ∃ bytes, imageData = some bytes ∧ s.db.lastRowid < maxInt64 ∧
      (s.Create now execFault queryFault content label imageData).2
        = { db := s.db.inserted now content label bytes } ∧
      (s.Create now execFault queryFault content label imageData).1
        = Store.GetByID { db := s.db.inserted now content label bytes } queryFault
            (s.db.lastRowid + 1) := by
  cases execFault with
  | some e => left; simp [Store.Create, DB.execInsert]
  | none =>
    rw [Create_eq]
    by_cases h : maxInt64 ≤ s.db.lastRowid
    · left; simp [h]
    · cases imageData with
      | none => left; simp [h]
      | some bytes =>
        right
        exact ⟨bytes, rfl, not_le.mp h, by simp [h], by simp [h]⟩

theorem inserted_WF (db : DB) (now : Nat) (content label : String) (bytes : List UInt8)
    (h : db.WF) : (db.inserted now content label bytes).WF := by
  have h0 := lastRowid_nonneg db
  constructor
  · intro r hr
    simp only [DB.inserted, List.mem_append, List.mem_singleton] at hr
    simp only [DB.inserted]
    rcases hr with hr | hr
    · have := id_le_lastRowid db r hr
      omega
    · subst hr
      simp only [DB.newRow]
      omega
  · simp only [DB.inserted, List.map_append, List.map_cons, List.map_nil]
    rw [List.nodup_append]
    refine ⟨h.2, List.nodup_singleton _, ?_⟩
    intro a ha hb
    simp only [List.mem_singleton] at hb
    simp only [List.mem_map] at ha
    obtain ⟨r, hr, rfl⟩ := ha
    have := id_le_lastRowid db r hr
    simp only [DB.newRow] at hb
    omega

theorem seq_lt_inserted (db : DB) (now : Nat) (content label : String) (bytes : List UInt8) :
    (db.seq : Int) < (db.lastRowid + 1) ∧
      (db.lastRowid + 1) = ((db.inserted now content label bytes).seq : Int) := by
  have h0 := lastRowid_nonneg db
  have h1 := seq_le_lastRowid db
  simp only [DB.inserted]
  omega

theorem returnedID_GetByID (s : Store) (fault : Option String) (id i : Int)
    (h : returnedID (s.GetByID fault id) = some i) : i = id := by
  unfold returnedID at h
  split at h
  · next qr heq =>
    simp only [Option.some.injEq] at h
    rw [← h]
    exact GetByID_some_ID s fault id qr heq
  · simp at h

/-- One call keeps the key respected, never lowers the `sqlite_sequence` entry,
and a `Create` returns an id above the old entry and up to the new one. -/
theorem call_WF (s : Store) (op : Op) (h : s.db.WF) :
    (op.call s).2.db.WF ∧ s.db.seq ≤ (op.call s).2.db.seq ∧
      ∀ i, (op.call s).1 = some i → (s.db.seq : Int) < i ∧ i ≤ ((op.call s).2.db.seq : Int) := by
  cases op with
  | create now execFault queryFault content label imageData =>
    simp only [Op.call]
    rcases Create_store s now execFault queryFault content label imageData with
      ⟨h1, h2, h3⟩ | ⟨bytes, _, _, h1, h2⟩
    · rw [h1]
      refine ⟨h, le_refl _, ?_⟩
      intro i hi
      unfold returnedID at hi
      split at hi
      · next qr heq => exact absurd heq (h3 qr)
      · simp at hi
    · have hs := seq_lt_inserted s.db now content label bytes
      rw [h1, h2]
      refine ⟨inserted_WF s.db now content label bytes h, ?_, ?_⟩
      · have := hs.1; have := hs.2
        show s.db.seq ≤ (s.db.inserted now content label bytes).seq
        omega
      · intro i hi
        have := returnedID_GetByID _ _ _ _ hi
        have := hs.1; have := hs.2
        show (s.db.seq : Int) < i ∧ i ≤ ((s.db.inserted now content label bytes).seq : Int)
        omega
  | updateLabel now fault id label =>
    simp only [Op.call, UpdateLabel_store]
    cases fault with
    | some e => exact ⟨h, le_refl _, by simp⟩
    | none =>
      refine ⟨⟨?_, ?_⟩, le_refl _, by simp⟩
      · intro r hr
        simp only [List.mem_map] at hr
        obtain ⟨r0, hr0, rfl⟩ := hr
        have := h.1 r0 hr0
        split <;> simpa using this
      · have hm : (s.db.rows.map (fun r =>
            if r.id = id then { r with label := label, updated_at := now } else r)).map
              (fun r => r.id) = s.db.rows.map (fun r => r.id) := by
          rw [List.map_map]
          apply List.map_congr_left
          intro r _
          simp only [Function.comp]
          split <;> rfl
        simp only [hm]
        exact h.2
  | delete fault id =>
    simp only [Op.call, Delete_store]
    cases fault with
    | some e => exact ⟨h, le_refl _, by simp⟩
    | none =>
      refine ⟨⟨?_, ?_⟩, le_refl _, by simp⟩
      · intro r hr
        exact h.1 r (List.mem_of_mem_filter hr)
      · exact (List.filter_sublist _).map _ |>.nodup h.2

end storage

namespace storage

theorem New_WF : New.db.WF := by
  constructor
  · intro r hr
    simp [New] at hr
  · simp [New]

theorem run_WF (ops : List Op) : ∀ s : Store, s.db.WF →
    (run s ops).2.db.WF ∧ s.db.seq ≤ (run s ops).2.db.seq ∧
      (∀ i ∈ (run s ops).1, (s.db.seq : Int) < i ∧ i ≤ ((run s ops).2.db.seq : Int)) ∧
      (run s ops).1.Pairwise (fun a b => a < b) := by
  induction ops with
  | nil =>
    intro s h
    simp [run, h]
  | cons op ops ih =>
    intro s h
    obtain ⟨hw, hle, hid⟩ := call_WF s op h
    obtain ⟨hw2, hle2, hid2, hp2⟩ := ih (op.call s).2 hw
    simp only [run]
    refine ⟨hw2, le_trans hle hle2, ?_, ?_⟩
    · intro i hi
      rcases List.mem_append.mp hi with hi | hi
      · have := hid i (by simpa using hi)
        have : ((op.call s).2.db.seq : Int) ≤ ((run (op.call s).2 ops).2.db.seq : Int) := by
          exact_mod_cast hle2
        omega
      · have := hid2 i hi
        have : (s.db.seq : Int) ≤ ((op.call s).2.db.seq : Int) := by exact_mod_cast hle
        omega
    · rw [List.pairwise_append]
      refine ⟨?_, hp2, ?_⟩
      · cases (op.call s).1 <;> simp
      · intro a ha b hb
        have h1 := hid a (by simpa using ha)
        have h2 := hid2 b hb
        omega

/-- A call that reports the row it adds leaves only rows whose id was there
before or is the id the call returned. -/
theorem call_rows (s : Store) (op : Op) (he : op.reported = true) :
    ∀ r ∈ (op.call s).2.db.rows,
      (∃ r0 ∈ s.db.rows, r0.id = r.id) ∨ (op.call s).1 = some r.id := by
  cases op with
  | create now execFault queryFault content label imageData =>
    cases execFault with
    | some e =>
      intro r hr
      exact Or.inl ⟨r, hr, rfl⟩
    | none =>
      simp only [Op.reported, Option.isSome_none, Bool.false_or,
        Option.isNone_iff_eq_none] at he
      subst he
      simp only [Op.call]
      rcases Create_store s now none none content label imageData with
        ⟨h1, _, _⟩ | ⟨bytes, _, _, h1, h2⟩
      · rw [h1]
        intro r hr
        exact Or.inl ⟨r, hr, rfl⟩
      · rw [h1, h2, GetByID_inserted]
        intro r hr
        simp only [DB.inserted, List.mem_append, List.mem_singleton] at hr
        rcases hr with hr | hr
        · exact Or.inl ⟨r, hr, rfl⟩
        · right
          subst hr
          rfl
  | updateLabel now fault id label =>
    simp only [Op.call, UpdateLabel_store]
    intro r hr
    left
    cases fault with
    | some e => exact ⟨r, hr, rfl⟩
    | none =>
      simp only [List.mem_map] at hr
      obtain ⟨r0, hr0, rfl⟩ := hr
      refine ⟨r0, hr0, ?_⟩
      split <;> rfl
  | delete fault id =>
    simp only [Op.call, Delete_store]
    intro r hr
    left
    cases fault with
    | some e => exact ⟨r, hr, rfl⟩
    | none => exact ⟨r, List.mem_of_mem_filter hr, rfl⟩

theorem run_rows (ops : List Op) : ∀ s : Store, (∀ op ∈ ops, op.reported = true) →
    ∀ r ∈ (run s ops).2.db.rows,
      (∃ r0 ∈ s.db.rows, r0.id = r.id) ∨ r.id ∈ (run s ops).1 := by
  induction ops with
  | nil =>
    intro s _ r hr
    exact Or.inl ⟨r, hr, rfl⟩
  | cons op ops ih =>
    intro s he r hr
    simp only [run] at hr ⊢
    rcases ih (op.call s).2 (fun o ho => he o (List.mem_cons_of_mem _ ho)) r hr with
      ⟨r0, hr0, hid⟩ | hmem
    · rcases call_rows s op (he op (List.mem_cons_self _ _)) r0 hr0 with ⟨r1, hr1, hid1⟩ | hret
      · exact Or.inl ⟨r1, hr1, hid1.trans hid⟩
      · right
        rw [List.mem_append]
        left
        rw [hret, hid]
        simp
    · right
      exact List.mem_append.mpr (Or.inr hmem)

/-- C2 (amended).  Start from the fresh store and perform any calls of `Create`,
`UpdateLabel` and `Delete`, whatever the driver does with their statements, as
long as every `Create` whose INSERT was executed also had its closing SELECT
executed.  For every id that none of the `Create` calls returned, `GetByID`
returns the absent result `(nil, nil)` when the driver executes its query, and
the error of the driver otherwise: never a record, never a not-found error. -/
theorem GetByID_never_issued (ops : List Op) (id : Int)
    (hrep : ∀ op ∈ ops, op.reported = true) (hid : id ∉ (run New ops).1) :
    (run New ops).2.GetByID none id = .ok none ∧
    ∀ e, (run New ops).2.GetByID (some e) id = .error ("failed to get qr code: " ++ e) := by
  constructor
  · rw [GetByID_eq_none_iff]
    intro r hr heq
    rcases run_rows ops New hrep r hr with ⟨r0, hr0, _⟩ | hmem
    · simp [New] at hr0
    · exact hid (heq ▸ hmem)
  · intro e
    rfl

theorem GetByID_never_issued_witness :
    (∀ op ∈ [Op.create 0 none none "https://example.com" "Test Label" (some [116]),
              Op.create 0 (some "database is locked") none "content2" "" (some [100]),
              Op.create 0 none none "content3" "" (some [100]),
              Op.updateLabel 1 (some "disk I/O error") 1 "Updated Label",
              Op.delete none 2], op.reported = true) ∧
    (99999 : Int) ∉ (run New
            [Op.create 0 none none "https://example.com" "Test Label" (some [116]),
              Op.create 0 (some "database is locked") none "content2" "" (some [100]),
              Op.create 0 none none "content3" "" (some [100]),
              Op.updateLabel 1 (some "disk I/O error") 1 "Updated Label",
              Op.delete none 2]).1 ∧
    (run New [Op.create 0 none none "https://example.com" "Test Label" (some [116]),
              Op.create 0 (some "database is locked") none "content2" "" (some [100]),
              Op.create 0 none none "content3" "" (some [100]),
              Op.updateLabel 1 (some "disk I/O error") 1 "Updated Label",
              Op.delete none 2]).2.GetByID none 99999 = .ok none :=
  ⟨by decide, by decide,
   (GetByID_never_issued _ 99999 (by decide) (by decide)).1⟩

/-- C2 as stated fails.  The driver executes the INSERT of a `Create` and fails
its closing SELECT: `Create` returns an error and no id, the row with id 1
stays, and `GetByID(1)` returns that record although no `Create` call returned
the id 1. -/
theorem GetByID_unreported_counterexample :
    (New.Create 0 none (some "disk I/O error") "https://example.com" "" (some [116])).1
      = .error "failed to get qr code: disk I/O error" ∧
    (run New [Op.create 0 none (some "disk I/O error") "https://example.com" ""
        (some [116])]).1 = [] ∧
    (run New [Op.create 0 none (some "disk I/O error") "https://example.com" ""
        (some [116])]).2.GetByID none 1
      = .ok (some ⟨1, "https://example.com", "", [116], 0, 0⟩) := by
  refine ⟨by rfl, by rfl, by rfl⟩

/-- C6.  Start from the fresh store and perform any calls of `Create`,
`UpdateLabel` and `Delete`, whatever the driver does with each statement.  The
ids the `Create` calls returned are strictly increasing in call order, a further
`Create` that returns a record returns an id above all of them, whether or not
their rows have been deleted, and no two rows of the table share an id. -/
theorem Create_ids_increasing (ops : List Op) :
    (run New ops).1.Pairwise (fun a b => a < b) ∧
    ((run New ops).2.db.rows.map (fun r => r.id)).Nodup ∧
    ∀ (now : Nat) (execFault queryFault : Option String) (content label : String)
      (imageData : Option (List UInt8)) (qr : QRCode),
      ((run New ops).2.Create now execFault queryFault content label imageData).1
          = .ok (some qr) →
        ∀ j ∈ (run New ops).1, j < qr.ID := by
  obtain ⟨hw, _, hid, hp⟩ := run_WF ops New New_WF
  refine ⟨hp, hw.2, ?_⟩
  intro now execFault queryFault content label imageData qr hqr j hj
  have hc := (call_WF (run New ops).2
    (.create now execFault queryFault content label imageData) hw).2.2 qr.ID (by
      simp only [Op.call, hqr, returnedID])
  have := hid j hj
  omega

theorem Create_ids_increasing_witness :
    (run New [Op.create 0 none none "a" "" (some [1]), Op.delete none 1,
              Op.create 0 none (some "disk I/O error") "b" "" (some [2])]).1 = [1] ∧
    ((run New [Op.create 0 none none "a" "" (some [1]), Op.delete none 1,
              Op.create 0 none (some "disk I/O error") "b" "" (some [2])]).2.Create 0 none none
        "c" "" (some [3])).1 = .ok (some ⟨3, "c", "", [3], 0, 0⟩) ∧
    ∀ j ∈ (run New [Op.create 0 none none "a" "" (some [1]), Op.delete none 1,
              Op.create 0 none (some "disk I/O error") "b" "" (some [2])]).1,
      j < (⟨3, "c", "", [3], 0, 0⟩ : QRCode).ID :=
  ⟨by rfl, by rfl,
   (Create_ids_increasing [Op.create 0 none none "a" "" (some [1]), Op.delete none 1,
      Op.create 0 none (some "disk I/O error") "b" "" (some [2])]).2.2 0 none none "c" ""
      (some [3]) ⟨3, "c", "", [3], 0, 0⟩ (by rfl)⟩

end storage

namespace storage

/-! ### Listing -/

theorem lastRowid_inserted (db : DB) (now : Nat) (content label : String) (bytes : List UInt8) :
    (db.inserted now content label bytes).lastRowid = db.lastRowid + 1 := by
  have h0 := lastRowid_nonneg db
  apply le_antisymm
  · apply foldl_max_le
    · simp only [DB.inserted]
      omega
    · intro r hr
      simp only [DB.inserted, List.mem_append, List.mem_singleton] at hr
      rcases hr with hr | hr
      · have := id_le_lastRowid db r hr
        omega
      · subst hr
        simp [DB.newRow]
  · have := id_le_lastRowid (db.inserted now content label bytes)
      (db.newRow now content label bytes) (by simp [DB.inserted])
    simpa [DB.newRow] using this

/-- A `Create` that returned a record, the driver executing both statements. -/
theorem Create_ok_inv (s s1 : Store) (now : Nat) (content label : String)
    (imageData : Option (List UInt8)) (qr : QRCode)
    (h : s.Create now none none content label imageData = (.ok (some qr), s1)) :
    ∃ bytes, imageData = some bytes ∧ qr = (s.db.newRow now content label bytes).Scan ∧
      s1 = { db := s.db.inserted now content label bytes } := by
  rcases Create_store s now none none content label imageData with
    ⟨_, _, h3⟩ | ⟨bytes, hb, _, h1, h2⟩
  · exact absurd (congrArg Prod.fst h) (h3 qr)
  · refine ⟨bytes, hb, ?_, ?_⟩
    · have := congrArg Prod.fst h
      simp only at this
      rw [h2, GetByID_inserted] at this
      simpa using this.symm
    · have := congrArg Prod.snd h
      simp only at this
      rw [← this, h1]

/-- Rows older than the two newest sort behind them. -/
theorem insertionSort_append_newest (a b : Row) (hab : b.created_at < a.created_at)
    (l : List Row) (hl : ∀ x ∈ l, x.created_at < b.created_at) (m rest : List Row)
    (hm : m.insertionSort idxCreatedAt = a :: b :: rest) :
    ∃ rest1, (l ++ m).insertionSort idxCreatedAt = a :: b :: rest1 := by
  induction l with
  | nil => exact ⟨rest, by simpa using hm⟩
  | cons x l ih =>
    obtain ⟨rest1, h1⟩ := ih (fun y hy => hl y (List.mem_cons_of_mem _ hy))
    have hx := hl x (List.mem_cons_self _ _)
    have hxa : ¬ idxCreatedAt x a := by unfold idxCreatedAt; omega
    have hxb : ¬ idxCreatedAt x b := by unfold idxCreatedAt; omega
    refine ⟨List.orderedInsert idxCreatedAt x rest1, ?_⟩
    rw [List.cons_append, List.insertionSort, h1]
    simp only [List.orderedInsert, hxa, hxb, if_false]

theorem insertionSort_three (r1 r2 r3 : Row) (h12 : r1.created_at < r2.created_at)
    (h23 : r2.created_at < r3.created_at) :
    [r1, r2, r3].insertionSort idxCreatedAt = [r3, r2, r1] := by
  have h1 : ¬ idxCreatedAt r2 r3 := by unfold idxCreatedAt; omega
  have h2 : ¬ idxCreatedAt r1 r3 := by unfold idxCreatedAt; omega
  have h3 : ¬ idxCreatedAt r1 r2 := by unfold idxCreatedAt; omega
  simp [List.insertionSort, List.orderedInsert, h1, h2, h3]

end storage

namespace storage

theorem ordered_perm (s : Store) : s.ordered.Perm (s.db.rows.map Row.Scan) :=
  (List.perm_insertionSort idxCreatedAt s.db.rows).map Row.Scan

theorem ordered_pairwise (s : Store) :
    s.ordered.Pairwise (fun a b =>
      b.CreatedAt < a.CreatedAt ∨ (a.CreatedAt = b.CreatedAt ∧ a.ID ≤ b.ID)) := by
  unfold Store.ordered
  rw [List.pairwise_map]
  exact List.sorted_insertionSort idxCreatedAt s.db.rows

theorem scanRows_ok (rows : List Row) : ∀ codes : List QRCode,
    scanRows (fun _ => none) rows codes = .ok (codes ++ rows.map Row.Scan) := by
  induction rows with
  | nil => intro codes; simp [scanRows]
  | cons r rows ih =>
    intro codes
    simp only [scanRows, ih, List.map_cons, List.append_assoc, List.singleton_append]

theorem List_eq (s : Store) (limit offset : Int) :
    s.List none (fun _ => none) none limit offset
      = .ok ((s.ordered.drop offset.toNat).take (if 0 < limit then limit else 50).toNat) := by
  unfold Store.List DB.queryList Store.ordered
  by_cases h : limit ≤ 0
  · have h1 : ¬ 0 < limit := not_lt.mpr h
    simp only [h, h1, if_true, if_false, scanRows_ok, List.nil_append, List.map_take,
      List.map_drop]
  · have h1 : 0 < limit := not_le.mp h
    simp only [h, h1, if_true, if_false, scanRows_ok, List.nil_append, List.map_take,
      List.map_drop]

/-- What `List` returns when the driver executes the query and scans every row:
for every store of n records, every limit and every offset >= 0, positions
offset .. offset+L-1 of the rows in the order of the index, L being limit if
limit > 0 and 50 otherwise.  These are min(L, max(n - offset, 0)) records in
non-increasing createdAt order.  After three `Create` calls returned records at
strictly increasing seconds, the second later than every older record,
`List(2, 0)` returns the two most recently created, newest first. -/
theorem List_window :
    (∀ (s : Store) (limit offset : Int), 0 ≤ offset →
      s.ordered.Perm (s.db.rows.map Row.Scan) ∧
      s.ordered.Pairwise (fun a b =>
        b.CreatedAt < a.CreatedAt ∨ (a.CreatedAt = b.CreatedAt ∧ a.ID ≤ b.ID)) ∧
      ∃ codes, s.List none (fun _ => none) none limit offset = .ok codes ∧
        codes = (s.ordered.drop offset.toNat).take (if 0 < limit then limit else 50).toNat ∧
        (codes.length : Int)
          = min (if 0 < limit then limit else 50) (max ((s.db.rows.length : Int) - offset) 0) ∧
        codes.Pairwise (fun a b => b.CreatedAt ≤ a.CreatedAt)) ∧
    (∀ (s s1 s2 s3 : Store) (t1 t2 t3 : Nat) (c1 c2 c3 l1 l2 l3 : String)
        (i1 i2 i3 : Option (List UInt8)) (q1 q2 q3 : QRCode),
      (∀ r ∈ s.db.rows, r.created_at < t2) → t1 < t2 → t2 < t3 →
      s.Create t1 none none c1 l1 i1 = (.ok (some q1), s1) →
      s1.Create t2 none none c2 l2 i2 = (.ok (some q2), s2) →
      s2.Create t3 none none c3 l3 i3 = (.ok (some q3), s3) →
      s3.List none (fun _ => none) none 2 0 = .ok [q3, q2]) := by
  constructor
  · intro s limit offset hoff
    refine ⟨ordered_perm s, ordered_pairwise s, _, List_eq s limit offset, rfl, ?_, ?_⟩
    · have hlen : s.ordered.length = s.db.rows.length := by
        simp [Store.ordered, List.length_insertionSort]
      rw [List.length_take, List.length_drop, hlen]
      by_cases h : 0 < limit
      · simp only [h, if_true]
        omega
      · simp only [h, if_false]
        omega
    · have hsub : ((s.ordered.drop offset.toNat).take
          (if 0 < limit then limit else 50).toNat).Sublist s.ordered :=
        (List.take_sublist _ _).trans (List.drop_sublist _ _)
      refine ((ordered_pairwise s).sublist hsub).imp ?_
      intro a b hab
      omega
  · intro s s1 s2 s3 t1 t2 t3 c1 c2 c3 l1 l2 l3 i1 i2 i3 q1 q2 q3 hold h12 h23 hc1 hc2 hc3
    obtain ⟨b1, _, rfl, rfl⟩ := Create_ok_inv _ _ _ _ _ _ _ hc1
    obtain ⟨b2, _, rfl, rfl⟩ := Create_ok_inv _ _ _ _ _ _ _ hc2
    obtain ⟨b3, _, rfl, rfl⟩ := Create_ok_inv _ _ _ _ _ _ _ hc3
    rw [List_eq]
    obtain ⟨rest1, hsort⟩ := insertionSort_append_newest
      (((s.db.inserted t1 c1 l1 b1).inserted t2 c2 l2 b2).newRow t3 c3 l3 b3)
      ((s.db.inserted t1 c1 l1 b1).newRow t2 c2 l2 b2) h23 s.db.rows hold
      [s.db.newRow t1 c1 l1 b1, (s.db.inserted t1 c1 l1 b1).newRow t2 c2 l2 b2,
        ((s.db.inserted t1 c1 l1 b1).inserted t2 c2 l2 b2).newRow t3 c3 l3 b3]
      [s.db.newRow t1 c1 l1 b1] (insertionSort_three _ _ _ h12 h23)
    have hrows : (((s.db.inserted t1 c1 l1 b1).inserted t2 c2 l2 b2).inserted t3 c3 l3 b3).rows
        = s.db.rows ++ [s.db.newRow t1 c1 l1 b1, (s.db.inserted t1 c1 l1 b1).newRow t2 c2 l2 b2,
            ((s.db.inserted t1 c1 l1 b1).inserted t2 c2 l2 b2).newRow t3 c3 l3 b3] := by
      simp [DB.inserted]
    simp only [Store.ordered, hrows, hsort]
    simp

end storage

namespace storage

theorem List_window_witness :
    ((0 : Int) ≤ 0 ∧
      ∃ codes, (run New [Op.create 5 none none "a" "" (some [1]),
                  Op.create 5 none none "b" "" (some [2]),
                  Op.create 6 none none "c" "" (some [3])]).2.List none (fun _ => none) none 2 0 = .ok codes ∧
        (codes.length : Int) = min (if (0 : Int) < 2 then 2 else 50)
          (max (((run New [Op.create 5 none none "a" "" (some [1]),
                  Op.create 5 none none "b" "" (some [2]),
                  Op.create 6 none none "c" "" (some [3])]).2.db.rows.length : Int) - 0) 0)) ∧
    ((∀ r ∈ New.db.rows, r.created_at < 2) ∧ 1 < 2 ∧ 2 < 3 ∧
      (New.Create 1 none none "a" "" (some [1])).2.Create 2 none none "b" "" (some [2])
        = (.ok (some ⟨2, "b", "", [2], 2, 2⟩),
            ((New.Create 1 none none "a" "" (some [1])).2.Create 2 none none "b" "" (some [2])).2) ∧
      (((New.Create 1 none none "a" "" (some [1])).2.Create 2 none none "b" ""
          (some [2])).2.Create 3 none none "c" "" (some [3])).2.List none (fun _ => none) none 2 0
        = .ok [⟨3, "c", "", [3], 3, 3⟩, ⟨2, "b", "", [2], 2, 2⟩]) :=
  ⟨⟨by decide,
    let ⟨_, _, codes, h1, _, h3, _⟩ := List_window.1 (run New [Op.create 5 none none "a" "" (some [1]),
      Op.create 5 none none "b" "" (some [2]), Op.create 6 none none "c" "" (some [3])]).2 2 0
      (by decide)
    ⟨codes, h1, h3⟩⟩,
   by decide, by decide, by decide, by rfl,
   List_window.2 New _ _ _ 1 2 3 "a" "b" "c" "" "" "" (some [1]) (some [2]) (some [3])
     ⟨1, "a", "", [1], 1, 1⟩ ⟨2, "b", "", [2], 2, 2⟩ ⟨3, "c", "", [3], 3, 3⟩
     (by decide) (by decide) (by decide) (by rfl) (by rfl) (by rfl)⟩

/-- C3, the failing input: the three `Create` calls of `TestStore`, served within
one second, then `List(2, 0)`.  The claim says the two most recently created
records are returned, ids 3 and 2; the code returns the two created first, ids 1
and 2, because `ORDER BY created_at DESC` compares whole seconds and has no
second key. -/
theorem List_same_second_counterexample :
    (run New [Op.create 7 none none "https://example.com" "Test Label" (some [116, 101]),
              Op.create 7 none none "content2" "" (some [100, 50]),
              Op.create 7 none none "content3" "" (some [100, 51])]).1 = [1, 2, 3] ∧
    (run New [Op.create 7 none none "https://example.com" "Test Label" (some [116, 101]),
              Op.create 7 none none "content2" "" (some [100, 50]),
              Op.create 7 none none "content3" "" (some [100, 51])]).2.List none
        (fun _ => none) none 2 0
      = .ok [⟨1, "https://example.com", "Test Label", [116, 101], 7, 7⟩,
             ⟨2, "content2", "", [100, 50], 7, 7⟩] ∧
    (run New [Op.create 7 none none "https://example.com" "Test Label" (some [116, 101]),
              Op.create 7 none none "content2" "" (some [100, 50]),
              Op.create 7 none none "content3" "" (some [100, 51])]).2.List none
        (fun _ => none) none 2 0
      ≠ .ok [⟨3, "content3", "", [100, 51], 7, 7⟩, ⟨2, "content2", "", [100, 50], 7, 7⟩] := by
  refine ⟨by rfl, by rfl, by decide⟩

end storage

namespace storage

/-! ### Relabelling and deleting -/

theorem filter_length_eq_zero_iff (rows : List Row) (id : Int) :
    ((rows.filter (fun r => decide (r.id = id))).length : Int) = 0 ↔ ¬ ∃ r ∈ rows, r.id = id := by
  rw [Int.natCast_eq_zero, List.length_eq_zero, List.filter_eq_nil_iff]
  simp

theorem find?_filter_ne (rows : List Row) (id j : Int) (hj : j ≠ id) :
    (rows.filter (fun r => decide ¬ r.id = id)).find? (fun r => decide (r.id = j))
      = rows.find? (fun r => decide (r.id = j)) := by
  induction rows with
  | nil => rfl
  | cons a l ih =>
    by_cases ha : a.id = id
    · have hb : ¬ a.id = j := fun hb => hj (hb ▸ ha)
      rw [List.filter_cons_of_neg (by simpa using ha), List.find?_cons_of_neg _ (by simpa using hb)]
      exact ih
    · rw [List.filter_cons_of_pos (by simpa using ha)]
      by_cases hb : a.id = j
      · rw [List.find?_cons_of_pos _ (by simpa using hb), List.find?_cons_of_pos _ (by simpa using hb)]
      · rw [List.find?_cons_of_neg _ (by simpa using hb), List.find?_cons_of_neg _ (by simpa using hb)]
        exact ih

theorem UpdateLabel_result (s : Store) (now : Nat) (id : Int) (label : String) :
    (s.UpdateLabel now none id label).1 =
      if ∃ r ∈ s.db.rows, r.id = id then .ok () else .error "qr code not found" := by
  unfold Store.UpdateLabel DB.execUpdateLabel
  simp only [Result.RowsAffected]
  by_cases h : ∃ r ∈ s.db.rows, r.id = id
  · rw [if_neg (by rw [filter_length_eq_zero_iff]; exact not_not.mpr h), if_pos h]
  · rw [if_pos ((filter_length_eq_zero_iff _ _).mpr h), if_neg h]

theorem Delete_result (s : Store) (id : Int) :
    (s.Delete none id).1 =
      if ∃ r ∈ s.db.rows, r.id = id then .ok () else .error "qr code not found" := by
  unfold Store.Delete DB.execDelete
  simp only [Result.RowsAffected]
  by_cases h : ∃ r ∈ s.db.rows, r.id = id
  · rw [if_neg (by rw [filter_length_eq_zero_iff]; exact not_not.mpr h), if_pos h]
  · rw [if_pos ((filter_length_eq_zero_iff _ _).mpr h), if_neg h]

/-- C4 (amended).  When the driver executes the UPDATE, `UpdateLabel(id, label)`
returns nil exactly when a row with that id exists.  Then that record's label
becomes `label` and its updatedAt the second of the update, which is later than
before only if the update falls in a later second, while its id, content,
imageData and createdAt, every other record and the id counter stay as they
were, also as `GetByID` reports them.  Otherwise it returns the error
"qr code not found" and the store is exactly as it was.  When the driver does
not execute the UPDATE, it returns the error of the driver behind
"failed to update label: ", whether or not the row exists, and the store is
exactly as it was. -/
theorem UpdateLabel_spec (s : Store) (now : Nat) (id : Int) (label : String) :
    ((s.UpdateLabel now none id label).1 = .ok () ↔ ∃ r ∈ s.db.rows, r.id = id) ∧
    ((s.UpdateLabel now none id label).1 = .ok () →
      (s.UpdateLabel now none id label).2.db.rows = s.db.rows.map (fun r =>
        if r.id = id then
          { id := r.id, content := r.content, label := label, image_data := r.image_data,
            created_at := r.created_at, updated_at := now }
        else r) ∧
      (s.UpdateLabel now none id label).2.db.seq = s.db.seq ∧
      ∀ j, (s.UpdateLabel now none id label).2.GetByID none j =
        match s.GetByID none j with
        | .ok (some qr) =>
          .ok (some (if j = id then
            { ID := qr.ID, Content := qr.Content, Label := label, ImageData := qr.ImageData,
              CreatedAt := qr.CreatedAt, UpdatedAt := now }
            else qr))
        | other => other) ∧
    ((s.UpdateLabel now none id label).1 ≠ .ok () →
      (s.UpdateLabel now none id label).1 = .error "qr code not found" ∧
      (s.UpdateLabel now none id label).2 = s) ∧
    (∀ e, s.UpdateLabel now (some e) id label = (.error ("failed to update label: " ++ e), s)) ∧
    (∀ (old : Nat) (qr : QRCode), s.GetByID none id = .ok (some qr) → qr.UpdatedAt = old →
      ∃ qr1, (s.UpdateLabel now none id label).2.GetByID none id = .ok (some qr1) ∧
        qr1.UpdatedAt = now ∧ (old < qr1.UpdatedAt ↔ old < now)) := by
  have hget : ∀ j, ({ db := { s.db with rows := s.db.rows.map (fun r =>
        if r.id = id then
          { id := r.id, content := r.content, label := label, image_data := r.image_data,
            created_at := r.created_at, updated_at := now }
        else r) } } : Store).GetByID none j =
      match s.GetByID none j with
      | .ok (some qr) =>
        .ok (some (if j = id then
          { ID := qr.ID, Content := qr.Content, Label := label, ImageData := qr.ImageData,
            CreatedAt := qr.CreatedAt, UpdatedAt := now }
          else qr))
      | other => other := by
    intro j
    simp only [Store.GetByID, DB.queryRowByID, List.find?_map]
    have hp : ((fun r : Row => decide (r.id = j)) ∘ fun r : Row =>
        if r.id = id then
          { id := r.id, content := r.content, label := label, image_data := r.image_data,
            created_at := r.created_at, updated_at := now }
        else r) = fun r : Row => decide (r.id = j) := by
      funext r
      simp only [Function.comp]
      split <;> rfl
    rw [hp]
    cases hf : s.db.rows.find? (fun r => decide (r.id = j)) with
    | none => rfl
    | some r =>
      have hr : r.id = j := by simpa using List.find?_some hf
      simp only [Option.map_some', hr]
      by_cases hj : j = id
      · have hid : r.id = id := hr.trans hj
        simp [hj, hid, Row.Scan]
      · simp [hj, Row.Scan]
  have hstamp : ∀ (old : Nat) (qr : QRCode), s.GetByID none id = .ok (some qr) →
      qr.UpdatedAt = old →
      ∃ qr1, (s.UpdateLabel now none id label).2.GetByID none id = .ok (some qr1) ∧
        qr1.UpdatedAt = now ∧ (old < qr1.UpdatedAt ↔ old < now) := by
    intro old qr hqr _
    rw [UpdateLabel_store]
    refine ⟨{ ID := qr.ID, Content := qr.Content, Label := label, ImageData := qr.ImageData,
              CreatedAt := qr.CreatedAt, UpdatedAt := now }, ?_, rfl, Iff.rfl⟩
    have := hget id
    rw [hqr] at this
    simpa using this
  refine ⟨?_, ?_, ?_, fun e => rfl, hstamp⟩
  · rw [UpdateLabel_result]
    by_cases h : ∃ r ∈ s.db.rows, r.id = id
    · rw [if_pos h]
      exact ⟨fun _ => h, fun _ => rfl⟩
    · rw [if_neg h]
      exact ⟨fun he => by simp at he, fun he => absurd he h⟩
  · intro _
    rw [UpdateLabel_store]
    exact ⟨rfl, rfl, hget⟩
  · rw [UpdateLabel_result, UpdateLabel_store]
    by_cases h : ∃ r ∈ s.db.rows, r.id = id
    · rw [if_pos h]
      intro hne
      exact absurd rfl hne
    · rw [if_neg h]
      intro _
      refine ⟨rfl, ?_⟩
      have hmap : s.db.rows.map (fun r =>
          if r.id = id then { r with label := label, updated_at := now } else r) = s.db.rows := by
        conv_rhs => rw [← List.map_id s.db.rows]
        apply List.map_congr_left
        intro r hr
        have : ¬ r.id = id := fun he => h ⟨r, hr, he⟩
        simp [this]
      show ({ db := { s.db with rows := s.db.rows.map (fun r =>
          if r.id = id then { r with label := label, updated_at := now } else r) } } : Store) = s
      rw [hmap]

theorem UpdateLabel_spec_witness :
    Store.GetByID ⟨⟨[⟨1, "https://example.com", "Test Label", [116], 5, 5⟩], 1⟩⟩ none 1
      = .ok (some ⟨1, "https://example.com", "Test Label", [116], 5, 5⟩) ∧
    ∃ qr1, (Store.UpdateLabel ⟨⟨[⟨1, "https://example.com", "Test Label", [116], 5, 5⟩], 1⟩⟩ 8
        none 1 "Updated Label").2.GetByID none 1 = .ok (some qr1) ∧
      qr1.UpdatedAt = 8 ∧ (5 < qr1.UpdatedAt ↔ 5 < 8) :=
  ⟨by rfl,
   (UpdateLabel_spec ⟨⟨[⟨1, "https://example.com", "Test Label", [116], 5, 5⟩], 1⟩⟩ 8 1
      "Updated Label").2.2.2.2 5 ⟨1, "https://example.com", "Test Label", [116], 5, 5⟩
      (by rfl) rfl⟩

/-- C4 as stated fails.  The record with id 1 exists.  When the driver does not
execute the UPDATE, `UpdateLabel` returns an error although the record exists;
and an UPDATE executed within the second of the record's updatedAt returns nil
and leaves updatedAt at the value it had. -/
theorem UpdateLabel_counterexample :
    (∃ r ∈ [(⟨1, "https://example.com", "Test Label", [116], 5, 5⟩ : Row)], r.id = 1) ∧
    Store.UpdateLabel ⟨⟨[⟨1, "https://example.com", "Test Label", [116], 5, 5⟩], 1⟩⟩ 9
        (some "database is locked") 1 "Updated Label"
      = (.error "failed to update label: database is locked",
         ⟨⟨[⟨1, "https://example.com", "Test Label", [116], 5, 5⟩], 1⟩⟩) ∧
    Store.UpdateLabel ⟨⟨[⟨1, "https://example.com", "Test Label", [116], 5, 5⟩], 1⟩⟩ 5
        none 1 "Updated Label"
      = (.ok (), ⟨⟨[⟨1, "https://example.com", "Updated Label", [116], 5, 5⟩], 1⟩⟩) := by
  refine ⟨by decide, by rfl, by rfl⟩

/-- C5 (amended).  When the driver executes the statements: if a row with that id
exists, `Delete(id)` returns nil, a following `GetByID(id)` returns absent, and
`GetByID` of every other id returns what it returned before; if no row with that
id exists, `Delete(id)` returns the error "qr code not found" and the store is
exactly as it was.  When the driver does not execute the DELETE, `Delete(id)`
returns the error of the driver behind "failed to delete qr code: ", whether or
not the row exists, and the store is exactly as it was. -/
theorem Delete_spec (s : Store) (id : Int) :
    ((∃ r ∈ s.db.rows, r.id = id) →
      (s.Delete none id).1 = .ok () ∧
      (s.Delete none id).2.GetByID none id = .ok none ∧
      ∀ j, j ≠ id → (s.Delete none id).2.GetByID none j = s.GetByID none j) ∧
    ((¬ ∃ r ∈ s.db.rows, r.id = id) →
      (s.Delete none id).1 = .error "qr code not found" ∧ (s.Delete none id).2 = s) ∧
    (∀ e, s.Delete (some e) id = (.error ("failed to delete qr code: " ++ e), s)) := by
  rw [Delete_result, Delete_store]
  refine ⟨?_, ?_, fun e => rfl⟩
  · intro h
    refine ⟨if_pos h, ?_, ?_⟩
    · rw [GetByID_eq_none_iff]
      intro r hr
      simpa using (List.mem_filter.mp hr).2
    · intro j hj
      simp only [Store.GetByID, DB.queryRowByID, find?_filter_ne s.db.rows id j hj]
  · intro h
    refine ⟨if_neg h, ?_⟩
    have hf : s.db.rows.filter (fun r => decide ¬ r.id = id) = s.db.rows := by
      rw [List.filter_eq_self]
      intro r hr
      have : ¬ r.id = id := fun he => h ⟨r, hr, he⟩
      simpa using this
    show ({ db := { s.db with rows := s.db.rows.filter (fun r => decide ¬ r.id = id) } }
      : Store) = s
    rw [hf]

theorem Delete_spec_witness :
    (∃ r ∈ [(⟨1, "https://example.com", "Test Label", [116], 5, 5⟩ : Row),
            ⟨2, "content2", "", [100], 5, 5⟩], r.id = 1) ∧
    (Store.Delete ⟨⟨[⟨1, "https://example.com", "Test Label", [116], 5, 5⟩,
        ⟨2, "content2", "", [100], 5, 5⟩], 2⟩⟩ none 1).1 = .ok () ∧
    (Store.Delete ⟨⟨[⟨1, "https://example.com", "Test Label", [116], 5, 5⟩,
        ⟨2, "content2", "", [100], 5, 5⟩], 2⟩⟩ none 1).2.GetByID none 1 = .ok none :=
  ⟨by decide,
   ((Delete_spec ⟨⟨[⟨1, "https://example.com", "Test Label", [116], 5, 5⟩,
      ⟨2, "content2", "", [100], 5, 5⟩], 2⟩⟩ 1).1 (by decide)).1,
   ((Delete_spec ⟨⟨[⟨1, "https://example.com", "Test Label", [116], 5, 5⟩,
      ⟨2, "content2", "", [100], 5, 5⟩], 2⟩⟩ 1).1 (by decide)).2.1⟩

/-- C5 as stated fails.  When the driver does not execute the DELETE, `Delete` of
the existing id 1 returns an error instead of nil and the record is still
returned by `GetByID`; `Delete` of the missing id 99999 returns the same error of
the driver, not the not-found error. -/
theorem Delete_counterexample :
    (∃ r ∈ [(⟨1, "https://example.com", "Test Label", [116], 5, 5⟩ : Row)], r.id = 1) ∧
    (Store.Delete ⟨⟨[⟨1, "https://example.com", "Test Label", [116], 5, 5⟩], 1⟩⟩
        (some "database is locked") 1).1
      = .error "failed to delete qr code: database is locked" ∧
    (Store.Delete ⟨⟨[⟨1, "https://example.com", "Test Label", [116], 5, 5⟩], 1⟩⟩
        (some "database is locked") 1).2.GetByID none 1
      = .ok (some ⟨1, "https://example.com", "Test Label", [116], 5, 5⟩) ∧
    (¬ ∃ r ∈ [(⟨1, "https://example.com", "Test Label", [116], 5, 5⟩ : Row)], r.id = 99999) ∧
    (Store.Delete ⟨⟨[⟨1, "https://example.com", "Test Label", [116], 5, 5⟩], 1⟩⟩
        (some "database is locked") 99999).1
      = .error "failed to delete qr code: database is locked" := by
  refine ⟨by decide, by rfl, by rfl, by decide, by rfl⟩

end storage

/-! ## The request handlers -/

namespace handler

theorem TrimSpace_blank (s : String) (h : s.data.all unicode.IsSpace = true) :
    strings.TrimSpace s = "" := by
  have h1 : s.data.dropWhile unicode.IsSpace = [] := by
    rw [List.dropWhile_eq_nil_iff]
    intro c hc
    exact List.all_eq_true.mp h c hc
  simp only [strings.TrimSpace, h1, List.reverse_nil, List.dropWhile_nil]

/-- C7.  A POST /generate whose form field `content` is empty or holds only white
space, and one whose form does not parse, is answered with status 400; the
handler calls neither generator nor store, whatever they would have done, and
the store keeps exactly the records it had. -/
theorem handleGenerate_blank (h : Handler) (Encode : qr.Encoder) (now : Nat)
    (execFault queryFault : Option String) (r : http.Request)
    (hblank : ∀ form, r.ParseForm = .ok form →
      (http.FormValue form "content").data.all unicode.IsSpace = true) :
    (h.handleGenerate Encode now execFault queryFault r).resp.Code = 400 ∧
    (h.handleGenerate Encode now execFault queryFault r).calls = [] ∧
    (h.handleGenerate Encode now execFault queryFault r).store = h.store := by
  unfold Handler.handleGenerate
  cases hf : r.ParseForm with
  | error e => exact ⟨rfl, rfl, rfl⟩
  | ok form =>
    have ht := TrimSpace_blank _ (hblank form hf)
    simp only [ht, if_true]
    exact ⟨rfl, trivial, trivial⟩

theorem handleGenerate_blank_witness :
    (∀ form, (⟨.ok [("content", ["  \n"])], [], .error "EOF"⟩ : http.Request).ParseForm = .ok form →
      (http.FormValue form "content").data.all unicode.IsSpace = true) ∧
    (Handler.handleGenerate ⟨storage.New, qrcode.New⟩ (fun _ _ _ => .ok (some [137, 80])) 0
      none none ⟨.ok [("content", ["  \n"])], [], .error "EOF"⟩).resp.Code = 400 ∧
    (Handler.handleGenerate ⟨storage.New, qrcode.New⟩ (fun _ _ _ => .ok (some [137, 80])) 0
      none none ⟨.ok [("content", ["  \n"])], [], .error "EOF"⟩).calls = [] ∧
    (Handler.handleGenerate ⟨storage.New, qrcode.New⟩ (fun _ _ _ => .ok (some [137, 80])) 0
      none none ⟨.ok [("content", ["  \n"])], [], .error "EOF"⟩).store = storage.New :=
  have hb : ∀ form, (⟨.ok [("content", ["  \n"])], [], .error "EOF"⟩ : http.Request).ParseForm
      = .ok form → (http.FormValue form "content").data.all unicode.IsSpace = true := by
    intro form hf
    simp only [Except.ok.injEq] at hf
    subst hf
    decide
  ⟨hb, handleGenerate_blank ⟨storage.New, qrcode.New⟩ (fun _ _ _ => .ok (some [137, 80])) 0
    none none ⟨.ok [("content", ["  \n"])], [], .error "EOF"⟩ hb⟩

end handler

namespace handler

/-- A `Create` that returned no error added exactly one row, with the values bound
to the INSERT. -/
theorem Create_no_error (s s1 : storage.Store) (now : Nat) (execFault queryFault : Option String)
    (content label : String) (imageData : Option (List UInt8)) (rec : Option storage.QRCode)
    (h : s.Create now execFault queryFault content label imageData = (.ok rec, s1)) :
    ∃ bytes, imageData = some bytes ∧
      s1.db.rows = s.db.rows ++ [s.db.newRow now content label bytes] := by
  rcases storage.Create_store s now execFault queryFault content label imageData with
    ⟨_, h2, h3⟩ | ⟨bytes, hb, _, h1, _⟩
  · have hr := congrArg Prod.fst h
    simp only at hr
    cases rec with
    | none => exact absurd hr h2
    | some qr => exact absurd hr (h3 qr)
  · refine ⟨bytes, hb, ?_⟩
    have hs := congrArg Prod.snd h
    simp only at hs
    rw [← hs, h1]
    rfl

/-- C8.  A POST /generate whose form parses and whose `content` field is not empty
after trimming white space.  If `Generate` and `Create` both return no error, the
response is 303 with Location "/", and the store is the one `Create` left: it
gained exactly one row, whose content is the trimmed content, whose label is
empty and whose imageData are the bytes `Generate` returned for the trimmed
content.  If `Generate` or `Create` returns an error, the response is 500. -/
theorem handleGenerate_content (h : Handler) (Encode : qr.Encoder) (now : Nat)
    (execFault queryFault : Option String) (r : http.Request)
    (form : List (String × List String)) (hform : r.ParseForm = .ok form)
    (hcontent : strings.TrimSpace (http.FormValue form "content") ≠ "") :
    (∀ imageData rec s1,
      h.generator.Generate Encode (strings.TrimSpace (http.FormValue form "content"))
        = .ok imageData →
      h.store.Create now execFault queryFault
        (strings.TrimSpace (http.FormValue form "content")) "" imageData = (.ok rec, s1) →
      (h.handleGenerate Encode now execFault queryFault r).resp.Code = 303 ∧
      (h.handleGenerate Encode now execFault queryFault r).resp.Header.lookup "Location"
        = some "/" ∧
      (h.handleGenerate Encode now execFault queryFault r).store = s1 ∧
      ∃ bytes id, imageData = some bytes ∧
        s1.db.rows = h.store.db.rows ++
          [{ id := id, content := strings.TrimSpace (http.FormValue form "content"),
             label := "", image_data := bytes, created_at := now, updated_at := now }]) ∧
    ((∃ e, h.generator.Generate Encode (strings.TrimSpace (http.FormValue form "content"))
        = .error e) →
      (h.handleGenerate Encode now execFault queryFault r).resp.Code = 500) ∧
    (∀ imageData e s1,
      h.generator.Generate Encode (strings.TrimSpace (http.FormValue form "content"))
        = .ok imageData →
      h.store.Create now execFault queryFault
        (strings.TrimSpace (http.FormValue form "content")) "" imageData = (.error e, s1) →
      (h.handleGenerate Encode now execFault queryFault r).resp.Code = 500) := by
  refine ⟨?_, ?_, ?_⟩
  · intro imageData rec s1 hg hc
    obtain ⟨bytes, hb, hrows⟩ := Create_no_error _ _ _ _ _ _ _ _ _ hc
    have ho : h.handleGenerate Encode now execFault queryFault r
        = ⟨http.Redirect "/" http.StatusSeeOther, s1,
            [.Generate (strings.TrimSpace (http.FormValue form "content")),
             .Create (strings.TrimSpace (http.FormValue form "content")) "" imageData]⟩ := by
      unfold Handler.handleGenerate
      simp only [hform, hcontent, if_false, hg, hc]
    rw [ho]
    exact ⟨rfl, rfl, rfl, bytes, _, hb, hrows⟩
  · rintro ⟨e, hg⟩
    unfold Handler.handleGenerate
    simp only [hform, hcontent, if_false, hg]
    rfl
  · intro imageData e s1 hg hc
    unfold Handler.handleGenerate
    simp only [hform, hcontent, if_false, hg, hc]
    rfl

end handler

namespace handler

theorem handleGenerate_content_witness :
    (⟨.ok [("content", ["  https://example.com\n"])], [], .error "EOF"⟩ : http.Request).ParseForm
      = .ok [("content", ["  https://example.com\n"])] ∧
    strings.TrimSpace (http.FormValue [("content", ["  https://example.com\n"])] "content") ≠ "" ∧
    (Handler.handleGenerate ⟨storage.New, qrcode.New⟩ (fun _ _ _ => .ok (some [137, 80, 78, 71]))
      9 none none ⟨.ok [("content", ["  https://example.com\n"])], [], .error "EOF"⟩).resp.Code
      = 303 ∧
    (Handler.handleGenerate ⟨storage.New, qrcode.New⟩ (fun _ _ _ => .ok (some [137, 80, 78, 71]))
      9 none none ⟨.ok [("content", ["  https://example.com\n"])], [], .error "EOF"⟩).store.db.rows
      = [⟨1, "https://example.com", "", [137, 80, 78, 71], 9, 9⟩] :=
  ⟨rfl, by decide,
   ((handleGenerate_content ⟨storage.New, qrcode.New⟩ (fun _ _ _ => .ok (some [137, 80, 78, 71]))
      9 none none ⟨.ok [("content", ["  https://example.com\n"])], [], .error "EOF"⟩
      [("content", ["  https://example.com\n"])] rfl (by decide)).1
      (some [137, 80, 78, 71]) (some ⟨1, "https://example.com", "", [137, 80, 78, 71], 9, 9⟩)
      ⟨⟨[⟨1, "https://example.com", "", [137, 80, 78, 71], 9, 9⟩], 1⟩⟩ (by rfl) (by rfl)).1,
   by rfl⟩

end handler

namespace strconv

/-! ### `ParseInt` accepts exactly the valid integers -/

/-- The value the digit loop reaches from `n`. -/
theorem foldl_value_ge (cs : List Char) (n : Nat) :
    n ≤ cs.foldl (fun n c => n * 10 + (c.toNat - 48)) n := by
  induction cs generalizing n with
  | nil => simp
  | cons c cs ih =>
    simp only [List.foldl_cons]
    have := ih (n * 10 + (c.toNat - 48))
    omega

theorem parseUintLoop_ok_iff (cs : List Char) (n v : Nat) (hn : n ≤ 18446744073709551615) :
    parseUintLoop cs n = .ok v ↔
      cs.all isDigit = true ∧
      cs.foldl (fun n c => n * 10 + (c.toNat - 48)) n ≤ 18446744073709551615 ∧
      v = cs.foldl (fun n c => n * 10 + (c.toNat - 48)) n := by
  induction cs generalizing n with
  | nil =>
    simp only [parseUintLoop, Except.ok.injEq, List.all_nil, List.foldl_nil, true_and]
    constructor
    · intro h
      exact ⟨hn, h.symm⟩
    · intro h
      exact h.2.symm
  | cons c cs ih =>
    have hge := foldl_value_ge cs (n * 10 + (c.toNat - 48))
    simp only [parseUintLoop, List.all_cons, List.foldl_cons, Bool.and_eq_true]
    by_cases hd : isDigit c = true
    · simp only [hd, if_true, true_and]
      by_cases h1 : 18446744073709551615 / 10 + 1 ≤ n
      · simp only [h1, if_true, reduceCtorEq, false_iff, not_and]
        intro _ hle
        omega
      · simp only [h1, if_false]
        by_cases h2 : 18446744073709551615 < n * 10 + (c.toNat - 48)
        · simp only [h2, if_true, reduceCtorEq, false_iff, not_and]
          intro _ hle
          omega
        · simp only [h2, if_false]
          exact ih (n * 10 + (c.toNat - 48)) (by omega)
    · simp only [hd, if_false, reduceCtorEq, false_and, Bool.false_eq_true]

theorem ParseUint_ok_iff (ds : List Char) (v : Nat) :
    ParseUint ds = .ok v ↔
      ds ≠ [] ∧ ds.all isDigit = true ∧ decimalValue ds ≤ 18446744073709551615 ∧
      v = decimalValue ds := by
  unfold ParseUint decimalValue
  by_cases h : ds = []
  · simp [h]
  · simp only [h, if_false, ne_eq, not_false_eq_true, true_and]
    exact parseUintLoop_ok_iff ds 0 v (by omega)

theorem ParseInt_sign (neg : Bool) (ds : List Char) (n : Int) :
    (match ParseUint ds with
      | .error e => (.error e : Except NumError Int)
      | .ok un =>
        if ¬ neg ∧ 9223372036854775808 ≤ un then .error .ErrRange
        else if neg ∧ 9223372036854775808 < un then .error .ErrRange
        else .ok (if neg then - (un : Int) else (un : Int))) = .ok n ↔
      (ds ≠ [] ∧ ds.all isDigit = true ∧
        (if neg then decimalValue ds ≤ 9223372036854775808
         else decimalValue ds ≤ 9223372036854775807)) ∧
      n = (if neg then - (decimalValue ds : Int) else (decimalValue ds : Int)) := by
  cases hp : ParseUint ds with
  | error e =>
    simp only [reduceCtorEq, false_iff, not_and]
    intro ⟨h1, h2, h3⟩
    have hv : decimalValue ds ≤ 18446744073709551615 := by
      cases neg <;> simp at h3 <;> omega
    have := (ParseUint_ok_iff ds (decimalValue ds)).mpr ⟨h1, h2, hv, rfl⟩
    rw [hp] at this
    exact absurd this (by simp)
  | ok un =>
    obtain ⟨h1, h2, _, h4⟩ := (ParseUint_ok_iff ds un).mp hp
    subst h4
    cases neg with
    | false =>
      simp only [Bool.false_eq_true, not_false_eq_true, true_and, false_and, if_false, h1, h2,
        ne_eq]
      by_cases hr : 9223372036854775808 ≤ decimalValue ds
      · simp only [hr, if_true, reduceCtorEq, false_iff, not_and]
        intro h
        omega
      · simp only [hr, if_false, Except.ok.injEq]
        constructor
        · intro h
          exact ⟨by omega, h.symm⟩
        · intro h
          exact h.2.symm
    | true =>
      simp only [not_true_eq_false, false_and, if_false, true_and, if_true, h1, h2, ne_eq,
        not_false_eq_true]
      by_cases hr : 9223372036854775808 < decimalValue ds
      · simp only [hr, if_true, reduceCtorEq, false_iff, not_and]
        intro h
        omega
      · simp only [hr, if_false, Except.ok.injEq]
        constructor
        · intro h
          exact ⟨by omega, h.symm⟩
        · intro h
          exact h.2.symm

/-- Function `ParseInt` returns a number exactly for the valid integers, and then the
number they denote. -/
theorem ParseInt_ok_iff (s : String) (n : Int) :
    ParseInt s = .ok n ↔ validInteger s = true ∧ n = integerValue s := by
  unfold ParseInt validInteger integerValue
  cases hs : s.data with
  | nil => simp
  | cons c cs =>
    simp only []
    by_cases hm : c = '-'
    · have hp : ¬ c = '+' := by rw [hm]; decide
      have := ParseInt_sign true cs n
      simp only [hm, or_true, if_true, decide_True] at this ⊢
      rw [this]
      simp [and_assoc]
    · by_cases hp : c = '+'
      · have := ParseInt_sign false cs n
        simp only [hp, true_or, if_true] at this ⊢
        simp only [show ¬ ('+' : Char) = '-' by decide, decide_False, if_false] at this ⊢
        rw [this]
        simp [and_assoc]
      · have := ParseInt_sign false (c :: cs) n
        simp only [hm, hp, or_self, if_false, decide_False] at this ⊢
        rw [this]
        simp [and_assoc]

end strconv

namespace handler

theorem GetByID_cases (s : storage.Store) (id : Int) :
    (s.GetByID none id = .ok none ∧ ∀ row ∈ s.db.rows, row.id ≠ id) ∨
    ∃ row ∈ s.db.rows, row.id = id ∧ s.GetByID none id = .ok (some row.Scan) := by
  cases hf : s.db.rows.find? (fun r => decide (r.id = id)) with
  | none =>
    left
    have hn : ∀ row ∈ s.db.rows, row.id ≠ id := by
      intro row hrow
      simpa using List.find?_eq_none.mp hf row hrow
    exact ⟨(storage.GetByID_eq_none_iff s id).mpr hn, hn⟩
  | some row =>
    right
    refine ⟨row, List.mem_of_find?_eq_some hf, by simpa using List.find?_some hf, ?_⟩
    simp only [storage.Store.GetByID, storage.DB.queryRowByID, hf]

/-- What `handleGetQR` does when the driver executes the query. -/
theorem handleGetQR_executed (h : Handler) (r : http.Request) :
    ((h.handleGetQR none r).resp.Code = 400 ↔
      strconv.validInteger (r.PathValue "id") = false) ∧
    ((h.handleGetQR none r).resp.Code = 404 ↔
      strconv.validInteger (r.PathValue "id") = true ∧
      ∀ row ∈ h.store.db.rows, row.id ≠ strconv.integerValue (r.PathValue "id")) ∧
    (strconv.validInteger (r.PathValue "id") = true →
      (∃ row ∈ h.store.db.rows, row.id = strconv.integerValue (r.PathValue "id")) →
      ∃ row ∈ h.store.db.rows, row.id = strconv.integerValue (r.PathValue "id") ∧
        h.store.GetByID none (strconv.integerValue (r.PathValue "id")) = .ok (some row.Scan) ∧
        (h.handleGetQR none r).resp.Code = 200 ∧
        (h.handleGetQR none r).resp.Header.lookup "Content-Type" = some "image/png" ∧
        (h.handleGetQR none r).resp.Body = .bytes row.image_data) ∧
    (h.handleGetQR none r).store = h.store := by
  by_cases hv : strconv.validInteger (r.PathValue "id") = true
  · have hp : strconv.ParseInt (r.PathValue "id")
        = .ok (strconv.integerValue (r.PathValue "id")) :=
      (strconv.ParseInt_ok_iff _ _).mpr ⟨hv, rfl⟩
    rcases GetByID_cases h.store (strconv.integerValue (r.PathValue "id")) with
      ⟨hg, hn⟩ | ⟨row, hrow, hid, hg⟩
    · have ho : h.handleGetQR none r
          = ⟨http.Error "QR code not found" http.StatusNotFound, h.store,
              [.GetByID (strconv.integerValue (r.PathValue "id"))]⟩ := by
        unfold Handler.handleGetQR
        simp only [hp, hg]
      rw [ho]
      refine ⟨?_, ?_, ?_, rfl⟩
      · simp [http.Error, http.StatusNotFound, hv]
      · simp only [http.Error, http.StatusNotFound, hv, true_and, true_iff]
        exact hn
      · intro _ ⟨row, hrow, hid⟩
        exact absurd hid (hn row hrow)
    · have ho : h.handleGetQR none r
          = ⟨{ Code := http.StatusOK,
               Header := [("Content-Type", "image/png"),
                 ("Content-Disposition", "inline; filename=\"qr-" ++ r.PathValue "id" ++ ".png\"")],
               Body := .bytes row.Scan.ImageData }, h.store,
              [.GetByID (strconv.integerValue (r.PathValue "id"))]⟩ := by
        unfold Handler.handleGetQR
        simp only [hp, hg]
      rw [ho]
      refine ⟨?_, ?_, ?_, rfl⟩
      · simp [http.StatusOK, hv]
      · simp only [http.StatusOK, hv, true_and]
        constructor
        · intro hc
          exact absurd hc (by decide)
        · intro hn
          exact absurd hid (hn row hrow)
      · intro _ _
        exact ⟨row, hrow, hid, hg, rfl, rfl, rfl⟩
  · have hp : ∃ e, strconv.ParseInt (r.PathValue "id") = .error e := by
      cases hpi : strconv.ParseInt (r.PathValue "id") with
      | error e => exact ⟨e, rfl⟩
      | ok n => exact absurd ((strconv.ParseInt_ok_iff _ _).mp hpi).1 hv
    obtain ⟨e, hp⟩ := hp
    have ho : h.handleGetQR none r
        = ⟨http.Error "Invalid ID" http.StatusBadRequest, h.store, []⟩ := by
      unfold Handler.handleGetQR
      simp only [hp]
    rw [ho]
    have hf : strconv.validInteger (r.PathValue "id") = false := by
      simpa using hv
    refine ⟨?_, ?_, ?_, rfl⟩
    · simp [http.Error, http.StatusBadRequest, hf]
    · simp [http.Error, http.StatusBadRequest, hf]
    · intro hv1
      exact absurd hv1 hv

end handler

namespace handler

/-- What `handleGetQR` does when the driver does not execute the query. -/
theorem handleGetQR_failed (h : Handler) (e : String) (r : http.Request) :
    (strconv.validInteger (r.PathValue "id") = true →
      h.handleGetQR (some e) r
        = ⟨http.Error "Failed to get QR code" http.StatusInternalServerError, h.store,
            [.GetByID (strconv.integerValue (r.PathValue "id"))]⟩) ∧
    (strconv.validInteger (r.PathValue "id") = false →
      h.handleGetQR (some e) r = ⟨http.Error "Invalid ID" http.StatusBadRequest, h.store, []⟩) := by
  constructor
  · intro hv
    have hp : strconv.ParseInt (r.PathValue "id")
        = .ok (strconv.integerValue (r.PathValue "id")) :=
      (strconv.ParseInt_ok_iff _ _).mpr ⟨hv, rfl⟩
    unfold Handler.handleGetQR
    simp only [hp]
    rfl
  · intro hv
    cases hpi : strconv.ParseInt (r.PathValue "id") with
    | error e1 =>
      unfold Handler.handleGetQR
      simp only [hpi]
    | ok n =>
      have := ((strconv.ParseInt_ok_iff _ _).mp hpi).1
      rw [hv] at this
      exact absurd this (by decide)

/-- C9 (amended).  The handler `handleGetQR` responds with status 400 exactly when the
path value `id` is not a valid integer (an optional sign and decimal digits of a
64-bit signed number).  For a valid integer, when the driver executes the query,
it responds with status 404 exactly when no row of the store has that id, and
otherwise with status 200, Content-Type image/png and a body that is byte for
byte the stored imageData of the record with that id; when the driver does not
execute the query, it responds with status 500.  It never changes the store. -/
theorem handleGetQR_spec (h : Handler) (fault : Option String) (r : http.Request) :
    ((h.handleGetQR fault r).resp.Code = 400 ↔
      strconv.validInteger (r.PathValue "id") = false) ∧
    (fault = none →
      ((h.handleGetQR fault r).resp.Code = 404 ↔
        strconv.validInteger (r.PathValue "id") = true ∧
        ∀ row ∈ h.store.db.rows, row.id ≠ strconv.integerValue (r.PathValue "id")) ∧
      (strconv.validInteger (r.PathValue "id") = true →
        (∃ row ∈ h.store.db.rows, row.id = strconv.integerValue (r.PathValue "id")) →
        ∃ row ∈ h.store.db.rows, row.id = strconv.integerValue (r.PathValue "id") ∧
          h.store.GetByID none (strconv.integerValue (r.PathValue "id"))
            = .ok (some row.Scan) ∧
          (h.handleGetQR fault r).resp.Code = 200 ∧
          (h.handleGetQR fault r).resp.Header.lookup "Content-Type" = some "image/png" ∧
          (h.handleGetQR fault r).resp.Body = .bytes row.image_data)) ∧
    (fault ≠ none → strconv.validInteger (r.PathValue "id") = true →
      (h.handleGetQR fault r).resp.Code = 500) ∧
    (h.handleGetQR fault r).store = h.store := by
  cases fault with
  | none =>
    obtain ⟨h400, h404, h200, hstore⟩ := handleGetQR_executed h r
    exact ⟨h400, fun _ => ⟨h404, h200⟩, fun hne => absurd rfl hne, hstore⟩
  | some e =>
    obtain ⟨hvalid, hinvalid⟩ := handleGetQR_failed h e r
    refine ⟨?_, fun hn => by simp at hn, ?_, ?_⟩
    · by_cases hv : strconv.validInteger (r.PathValue "id") = true
      · rw [hvalid hv]
        simp [http.Error, http.StatusInternalServerError, hv]
      · have hf : strconv.validInteger (r.PathValue "id") = false := by simpa using hv
        rw [hinvalid hf]
        simp [http.Error, http.StatusBadRequest, hf]
    · intro _ hv
      rw [hvalid hv]
      rfl
    · by_cases hv : strconv.validInteger (r.PathValue "id") = true
      · rw [hvalid hv]
      · have hf : strconv.validInteger (r.PathValue "id") = false := by simpa using hv
        rw [hinvalid hf]

theorem handleGetQR_spec_witness :
    strconv.validInteger
      ((⟨.error "no form", [("id", "1")], .error "EOF"⟩ : http.Request).PathValue "id") = true ∧
    (∃ row ∈ [(⟨1, "test", "", [137, 80, 78, 71], 0, 0⟩ : storage.Row)],
      row.id = strconv.integerValue
        ((⟨.error "no form", [("id", "1")], .error "EOF"⟩ : http.Request).PathValue "id")) ∧
    ∃ row ∈ [(⟨1, "test", "", [137, 80, 78, 71], 0, 0⟩ : storage.Row)],
      (Handler.handleGetQR ⟨⟨⟨[⟨1, "test", "", [137, 80, 78, 71], 0, 0⟩], 1⟩⟩, qrcode.New⟩ none
        ⟨.error "no form", [("id", "1")], .error "EOF"⟩).resp.Code = 200 ∧
      (Handler.handleGetQR ⟨⟨⟨[⟨1, "test", "", [137, 80, 78, 71], 0, 0⟩], 1⟩⟩, qrcode.New⟩ none
        ⟨.error "no form", [("id", "1")], .error "EOF"⟩).resp.Body = .bytes row.image_data :=
  ⟨by decide, by decide,
   let ⟨row, hrow, _, _, hc, _, hb⟩ :=
     ((handleGetQR_spec ⟨⟨⟨[⟨1, "test", "", [137, 80, 78, 71], 0, 0⟩], 1⟩⟩, qrcode.New⟩ none
       ⟨.error "no form", [("id", "1")], .error "EOF"⟩).2.1 rfl).2 (by decide) (by decide)
   ⟨row, hrow, hc, hb⟩⟩

/-- C9 as stated fails.  The path value is the valid integer 1 and the store holds
the record with id 1, but the driver does not execute the query: the response
is 500, neither 400 nor 404 nor 200. -/
theorem handleGetQR_driver_error_counterexample :
    strconv.validInteger
      ((⟨.error "no form", [("id", "1")], .error "EOF"⟩ : http.Request).PathValue "id") = true ∧
    (∃ row ∈ [(⟨1, "test", "", [137, 80, 78, 71], 0, 0⟩ : storage.Row)], row.id = 1) ∧
    (Handler.handleGetQR ⟨⟨⟨[⟨1, "test", "", [137, 80, 78, 71], 0, 0⟩], 1⟩⟩, qrcode.New⟩
      (some "database is locked") ⟨.error "no form", [("id", "1")], .error "EOF"⟩).resp
      = http.Error "Failed to get QR code" 500 := by
  refine ⟨by decide, by decide, by rfl⟩

theorem handleUpdateLabel_eq (h : Handler) (now : Nat) (fault : Option String)
    (r : http.Request) (id : Int) (label : String)
    (hid : strconv.ParseInt (r.PathValue "id") = .ok id) (hbody : r.DecodeLabel = .ok label) :
    h.handleUpdateLabel now fault r =
      match h.store.UpdateLabel now fault id label with
      | (.error err, store) =>
        if strings.Contains err "not found" then
          ⟨http.Error "QR code not found" http.StatusNotFound, store, [.UpdateLabel id label]⟩
        else
          ⟨http.Error "Failed to update label" http.StatusInternalServerError, store,
            [.UpdateLabel id label]⟩
      | (.ok _, store) => ⟨statusOK, store, [.UpdateLabel id label]⟩ := by
  unfold Handler.handleUpdateLabel
  simp only [hid, hbody]

theorem handleDelete_eq (h : Handler) (fault : Option String) (r : http.Request) (id : Int)
    (hid : strconv.ParseInt (r.PathValue "id") = .ok id) :
    h.handleDelete fault r =
      match h.store.Delete fault id with
      | (.error err, store) =>
        if strings.Contains err "not found" then
          ⟨http.Error "QR code not found" http.StatusNotFound, store, [.Delete id]⟩
        else
          ⟨http.Error "Failed to delete QR code" http.StatusInternalServerError, store,
            [.Delete id]⟩
      | (.ok _, store) => ⟨statusOK, store, [.Delete id]⟩ := by
  unfold Handler.handleDelete
  simp only [hid]

/-- How the two handlers turn the result of the store call into a response. -/
theorem status_of_result (res : Except String Unit) (store : storage.Store) (msg : String)
    (calls : List Call) (o : Outcome)
    (ho : o = match (res, store) with
      | (.error err, store) =>
        if strings.Contains err "not found" then
          ⟨http.Error "QR code not found" http.StatusNotFound, store, calls⟩
        else ⟨http.Error msg http.StatusInternalServerError, store, calls⟩
      | (.ok _, store) => ⟨statusOK, store, calls⟩) :
    (o.resp.Code = 200 ↔ res = .ok ()) ∧
    (res = .ok () → o.resp = statusOK) ∧
    (o.resp.Code = 404 ↔ ∃ err, res = .error err ∧ strings.Contains err "not found" = true) ∧
    (o.resp.Code = 500 ↔ ∃ err, res = .error err ∧ strings.Contains err "not found" = false) := by
  subst ho
  cases res with
  | ok u =>
    cases u
    simp [statusOK, http.StatusOK]
  | error err =>
    by_cases hc : strings.Contains err "not found" = true
    · simp [hc, http.Error, http.StatusNotFound]
    · have hf : strings.Contains err "not found" = false := by simpa using hc
      simp [hf, http.Error, http.StatusInternalServerError]

end handler

namespace handler

theorem not_found_text : strings.Contains "qr code not found" "not found" = true := by decide

theorem status_of_lookup (res : Except String Unit) (code : Nat) (p : Prop) [Decidable p]
    (hres : res = if p then .ok () else .error "qr code not found")
    (h200 : code = 200 ↔ res = .ok ())
    (h404 : code = 404 ↔ ∃ err, res = .error err ∧ strings.Contains err "not found" = true) :
    (code = 200 ↔ p) ∧ (code = 404 ↔ ¬ p) := by
  by_cases hp : p
  · rw [if_pos hp] at hres
    subst hres
    refine ⟨⟨fun _ => hp, fun _ => h200.mpr rfl⟩, ⟨fun h => ?_, fun h => absurd hp h⟩⟩
    obtain ⟨err, he, _⟩ := h404.mp h
    simp at he
  · rw [if_neg hp] at hres
    subst hres
    refine ⟨⟨fun h => ?_, fun h => absurd h hp⟩, ⟨fun _ => hp, fun _ => ?_⟩⟩
    · have := h200.mp h
      simp at this
    · exact h404.mpr ⟨_, rfl, not_found_text⟩

/-- C10 (amended).  For `handleUpdateLabel` and `handleDelete`, given a parsable id
(and, for update, a body that decodes): the response is 200 with JSON
{"status":"ok"} exactly when the store call returns no error, 404 exactly when
the store call returns an error whose text contains "not found", and 500 exactly
when it returns an error whose text does not.  When the driver executes the
statement, the response is 200 exactly when the store has a row with that id and
404 exactly when it has none. -/
theorem handleUpdateLabel_handleDelete_status :
    (∀ (h : Handler) (now : Nat) (fault : Option String) (r : http.Request) (id : Int)
        (label : String),
      strconv.ParseInt (r.PathValue "id") = .ok id → r.DecodeLabel = .ok label →
      ((h.handleUpdateLabel now fault r).resp.Code = 200 ↔
        (h.store.UpdateLabel now fault id label).1 = .ok ()) ∧
      ((h.store.UpdateLabel now fault id label).1 = .ok () →
        (h.handleUpdateLabel now fault r).resp = statusOK) ∧
      ((h.handleUpdateLabel now fault r).resp.Code = 404 ↔
        ∃ err, (h.store.UpdateLabel now fault id label).1 = .error err ∧
          strings.Contains err "not found" = true) ∧
      ((h.handleUpdateLabel now fault r).resp.Code = 500 ↔
        ∃ err, (h.store.UpdateLabel now fault id label).1 = .error err ∧
          strings.Contains err "not found" = false) ∧
      (fault = none →
        ((h.handleUpdateLabel now fault r).resp.Code = 200 ↔
          ∃ row ∈ h.store.db.rows, row.id = id) ∧
        ((h.handleUpdateLabel now fault r).resp.Code = 404 ↔
          ¬ ∃ row ∈ h.store.db.rows, row.id = id))) ∧
    (∀ (h : Handler) (fault : Option String) (r : http.Request) (id : Int),
      strconv.ParseInt (r.PathValue "id") = .ok id →
      ((h.handleDelete fault r).resp.Code = 200 ↔ (h.store.Delete fault id).1 = .ok ()) ∧
      ((h.store.Delete fault id).1 = .ok () → (h.handleDelete fault r).resp = statusOK) ∧
      ((h.handleDelete fault r).resp.Code = 404 ↔
        ∃ err, (h.store.Delete fault id).1 = .error err ∧
          strings.Contains err "not found" = true) ∧
      ((h.handleDelete fault r).resp.Code = 500 ↔
        ∃ err, (h.store.Delete fault id).1 = .error err ∧
          strings.Contains err "not found" = false) ∧
      (fault = none →
        ((h.handleDelete fault r).resp.Code = 200 ↔ ∃ row ∈ h.store.db.rows, row.id = id) ∧
        ((h.handleDelete fault r).resp.Code = 404 ↔
          ¬ ∃ row ∈ h.store.db.rows, row.id = id))) := by
  constructor
  · intro h now fault r id label hid hbody
    obtain ⟨h200, hok, h404, h500⟩ := status_of_result (h.store.UpdateLabel now fault id label).1
      (h.store.UpdateLabel now fault id label).2 "Failed to update label" [.UpdateLabel id label]
      (h.handleUpdateLabel now fault r) (handleUpdateLabel_eq h now fault r id label hid hbody)
    refine ⟨h200, hok, h404, h500, ?_⟩
    intro hf
    subst hf
    exact status_of_lookup _ _ _ (storage.UpdateLabel_result h.store now id label) h200 h404
  · intro h fault r id hid
    obtain ⟨h200, hok, h404, h500⟩ := status_of_result (h.store.Delete fault id).1
      (h.store.Delete fault id).2 "Failed to delete QR code" [.Delete id]
      (h.handleDelete fault r) (handleDelete_eq h fault r id hid)
    refine ⟨h200, hok, h404, h500, ?_⟩
    intro hf
    subst hf
    exact status_of_lookup _ _ _ (storage.Delete_result h.store id) h200 h404

theorem handleUpdateLabel_handleDelete_status_witness :
    strconv.ParseInt ((⟨.error "no form", [("id", "1")], .ok "Updated"⟩ : http.Request).PathValue
      "id") = .ok 1 ∧
    (⟨.error "no form", [("id", "1")], .ok "Updated"⟩ : http.Request).DecodeLabel = .ok "Updated" ∧
    ((Handler.handleUpdateLabel ⟨⟨⟨[⟨1, "test", "", [137, 80, 78, 71], 0, 0⟩], 1⟩⟩, qrcode.New⟩ 3
        none ⟨.error "no form", [("id", "1")], .ok "Updated"⟩).resp.Code = 200 ↔
      ∃ row ∈ [(⟨1, "test", "", [137, 80, 78, 71], 0, 0⟩ : storage.Row)], row.id = 1) ∧
    ((Handler.handleDelete ⟨⟨⟨[⟨1, "test", "", [137, 80, 78, 71], 0, 0⟩], 1⟩⟩, qrcode.New⟩
        none ⟨.error "no form", [("id", "1")], .ok "Updated"⟩).resp.Code = 404 ↔
      ¬ ∃ row ∈ [(⟨1, "test", "", [137, 80, 78, 71], 0, 0⟩ : storage.Row)], row.id = 1) :=
  ⟨by rfl, rfl,
   ((handleUpdateLabel_handleDelete_status.1
      ⟨⟨⟨[⟨1, "test", "", [137, 80, 78, 71], 0, 0⟩], 1⟩⟩, qrcode.New⟩ 3 none
      ⟨.error "no form", [("id", "1")], .ok "Updated"⟩ 1 "Updated" (by rfl) rfl).2.2.2.2 rfl).1,
   ((handleUpdateLabel_handleDelete_status.2
      ⟨⟨⟨[⟨1, "test", "", [137, 80, 78, 71], 0, 0⟩], 1⟩⟩, qrcode.New⟩ none
      ⟨.error "no form", [("id", "1")], .ok "Updated"⟩ 1 (by rfl)).2.2.2.2 rfl).2⟩

/-- C10 as stated fails.  The store holds the record with id 1 and the driver gives
up on the statement with an error whose text happens to contain "not found":
both handlers report 404, although the record exists and the failure is not a
missing row. -/
theorem handleDelete_driver_error_counterexample :
    (∃ row ∈ [(⟨1, "test", "", [137, 80, 78, 71], 0, 0⟩ : storage.Row)], row.id = 1) ∧
    (storage.Store.Delete ⟨⟨[⟨1, "test", "", [137, 80, 78, 71], 0, 0⟩], 1⟩⟩
      (some "disk I/O error: file not found") 1).1
      = .error "failed to delete qr code: disk I/O error: file not found" ∧
    (Handler.handleDelete ⟨⟨⟨[⟨1, "test", "", [137, 80, 78, 71], 0, 0⟩], 1⟩⟩, qrcode.New⟩
      (some "disk I/O error: file not found")
      ⟨.error "no form", [("id", "1")], .error "EOF"⟩).resp.Code = 404 ∧
    (Handler.handleUpdateLabel ⟨⟨⟨[⟨1, "test", "", [137, 80, 78, 71], 0, 0⟩], 1⟩⟩, qrcode.New⟩ 3
      (some "disk I/O error: file not found")
      ⟨.error "no form", [("id", "1")], .ok "Updated"⟩).resp.Code = 404 ∧
    (Handler.handleDelete ⟨⟨⟨[⟨1, "test", "", [137, 80, 78, 71], 0, 0⟩], 1⟩⟩, qrcode.New⟩
      (some "disk I/O error: file not found")
      ⟨.error "no form", [("id", "1")], .error "EOF"⟩).store.db.rows
      = [⟨1, "test", "", [137, 80, 78, 71], 0, 0⟩] := by
  refine ⟨by decide, by rfl, by rfl, by rfl, by rfl⟩

end handler

/-! ## The invariant of the data model -/

namespace handler

theorem handleGenerate_store (h : Handler) (Encode : qr.Encoder) (now : Nat)
    (execFault queryFault : Option String) (r : http.Request) :
    (h.handleGenerate Encode now execFault queryFault r).store = h.store ∨
    ∃ form imageData, r.ParseForm = .ok form ∧
      strings.TrimSpace (http.FormValue form "content") ≠ "" ∧
      h.generator.Generate Encode (strings.TrimSpace (http.FormValue form "content"))
        = .ok imageData ∧
      (h.handleGenerate Encode now execFault queryFault r).store
        = (h.store.Create now execFault queryFault
            (strings.TrimSpace (http.FormValue form "content")) "" imageData).2 := by
  unfold Handler.handleGenerate
  cases hf : r.ParseForm with
  | error e => exact Or.inl rfl
  | ok form =>
    by_cases hc : strings.TrimSpace (http.FormValue form "content") = ""
    · left
      simp only [hc, if_true]
    · cases hg : h.generator.Generate Encode (strings.TrimSpace (http.FormValue form "content")) with
      | error e =>
        left
        simp only [hc, if_false, hg]
      | ok imageData =>
        right
        refine ⟨form, imageData, rfl, hc, hg, ?_⟩
        simp only [hc, if_false, hg]
        split <;> simp_all

theorem handleGetQR_store (h : Handler) (fault : Option String) (r : http.Request) :
    (h.handleGetQR fault r).store = h.store := by
  unfold Handler.handleGetQR
  simp only []
  split
  · rfl
  · split <;> rfl

theorem handleUpdateLabel_store (h : Handler) (now : Nat) (fault : Option String)
    (r : http.Request) :
    (h.handleUpdateLabel now fault r).store = h.store ∨
    ∃ id label, (h.handleUpdateLabel now fault r).store
      = (h.store.UpdateLabel now fault id label).2 := by
  unfold Handler.handleUpdateLabel
  simp only []
  split
  · exact Or.inl rfl
  · next id _ =>
    split
    · exact Or.inl rfl
    · next label _ =>
      right
      refine ⟨id, label, ?_⟩
      split
      · split <;> simp_all
      · simp_all

theorem handleDelete_store (h : Handler) (fault : Option String) (r : http.Request) :
    (h.handleDelete fault r).store = h.store ∨
    ∃ id, (h.handleDelete fault r).store = (h.store.Delete fault id).2 := by
  unfold Handler.handleDelete
  simp only []
  split
  · exact Or.inl rfl
  · next id _ =>
    right
    refine ⟨id, ?_⟩
    split
    · split <;> simp_all
    · simp_all

end handler

namespace handler

/-- A generate request leaves the rows as they were, or adds one row that holds
the trimmed, non-empty content and the bytes of the non-nil slice the generator
returned. -/
theorem handleGenerate_rows (h : Handler) (Encode : qr.Encoder) (now : Nat)
    (execFault queryFault : Option String) (r : http.Request) :
    (h.handleGenerate Encode now execFault queryFault r).store = h.store ∨
    ∃ form bytes, r.ParseForm = .ok form ∧
      strings.TrimSpace (http.FormValue form "content") ≠ "" ∧
      h.generator.Generate Encode (strings.TrimSpace (http.FormValue form "content"))
        = .ok (some bytes) ∧
      (h.handleGenerate Encode now execFault queryFault r).store.db.rows
        = h.store.db.rows ++
          [h.store.db.newRow now (strings.TrimSpace (http.FormValue form "content")) "" bytes] := by
  rcases handleGenerate_store h Encode now execFault queryFault r with
    hs | ⟨form, imageData, hf, hc, hg, hs⟩
  · exact Or.inl hs
  · rcases storage.Create_store h.store now execFault queryFault
        (strings.TrimSpace (http.FormValue form "content")) "" imageData with
      ⟨h1, _, _⟩ | ⟨bytes, hb, _, h1, _⟩
    · left
      rw [hs, h1]
    · right
      subst hb
      refine ⟨form, bytes, hf, hc, hg, ?_⟩
      rw [hs, h1]
      rfl

theorem handleGenerate_valid (h : Handler) (Encode : qr.Encoder) (now : Nat)
    (execFault queryFault : Option String) (r : http.Request) (hv : recordsValid h.store) :
    recordsValid (h.handleGenerate Encode now execFault queryFault r).store := by
  rcases handleGenerate_rows h Encode now execFault queryFault r with
    hs | ⟨form, bytes, _, hc, _, hrows⟩
  · rw [hs]
    exact hv
  · intro row hrow
    rw [hrows, List.mem_append, List.mem_singleton] at hrow
    rcases hrow with hrow | hrow
    · exact hv row hrow
    · subst hrow
      exact hc

theorem handleUpdateLabel_valid (h : Handler) (now : Nat) (fault : Option String)
    (r : http.Request) (hv : recordsValid h.store) :
    recordsValid (h.handleUpdateLabel now fault r).store := by
  rcases handleUpdateLabel_store h now fault r with hs | ⟨id, label, hs⟩
  · rw [hs]
    exact hv
  · rw [hs, storage.UpdateLabel_store]
    cases fault with
    | some e => exact hv
    | none =>
      intro row hrow
      simp only [List.mem_map] at hrow
      obtain ⟨r0, hr0, rfl⟩ := hrow
      have := hv r0 hr0
      split <;> simpa using this

theorem handleDelete_valid (h : Handler) (fault : Option String) (r : http.Request)
    (hv : recordsValid h.store) : recordsValid (h.handleDelete fault r).store := by
  rcases handleDelete_store h fault r with hs | ⟨id, hs⟩
  · rw [hs]
    exact hv
  · rw [hs, storage.Delete_store]
    cases fault with
    | some e => exact hv
    | none =>
      intro row hrow
      exact hv row (List.mem_of_mem_filter hrow)

theorem serve_valid (h : Handler) (req : Served) (hv : recordsValid h.store) :
    recordsValid (h.serve req).store := by
  cases req with
  | generate Encode now execFault queryFault r =>
    exact handleGenerate_valid h Encode now execFault queryFault r hv
  | getQR fault r =>
    simp only [Handler.serve, handleGetQR_store]
    exact hv
  | updateLabel now fault r => exact handleUpdateLabel_valid h now fault r hv
  | delete fault r => exact handleDelete_valid h fault r hv

theorem serveAll_valid (reqs : List Served) : ∀ h : Handler, recordsValid h.store →
    recordsValid (h.serveAll reqs).store := by
  induction reqs with
  | nil => intro h hv; exact hv
  | cons req reqs ih =>
    intro h hv
    simp only [Handler.serveAll, List.foldl_cons]
    exact ih (h.serve req) (serve_valid h req hv)

/-- C11.  Every record of every store reachable from the empty store through the
requests that can change it has a non-empty content and an imageData that is not
NULL.  The predicate holds of the empty store and each of the generate,
update-label and delete requests preserves it, whatever the encoder and the
driver do; a generate request that changes the rows adds exactly one row, with
the trimmed non-empty content and the bytes of a non-nil slice from the
generator. -/
theorem records_stay_valid :
    recordsValid storage.New ∧
    (∀ (h : Handler) (Encode : qr.Encoder) (now : Nat) (execFault queryFault : Option String)
        (r : http.Request), recordsValid h.store →
      recordsValid (h.handleGenerate Encode now execFault queryFault r).store ∧
      ((h.handleGenerate Encode now execFault queryFault r).store = h.store ∨
        ∃ form bytes, r.ParseForm = .ok form ∧
          strings.TrimSpace (http.FormValue form "content") ≠ "" ∧
          h.generator.Generate Encode (strings.TrimSpace (http.FormValue form "content"))
            = .ok (some bytes) ∧
          (h.handleGenerate Encode now execFault queryFault r).store.db.rows
            = h.store.db.rows ++
              [{ id := h.store.db.lastRowid + 1,
                 content := strings.TrimSpace (http.FormValue form "content"),
                 label := "", image_data := bytes, created_at := now, updated_at := now }])) ∧
    (∀ (h : Handler) (now : Nat) (fault : Option String) (r : http.Request),
      recordsValid h.store → recordsValid (h.handleUpdateLabel now fault r).store) ∧
    (∀ (h : Handler) (fault : Option String) (r : http.Request),
      recordsValid h.store → recordsValid (h.handleDelete fault r).store) ∧
    (∀ (g : qrcode.Generator) (reqs : List Served),
      recordsValid (Handler.serveAll ⟨storage.New, g⟩ reqs).store) := by
  have hnew : recordsValid storage.New := by
    intro row hrow
    simp [storage.New] at hrow
  refine ⟨hnew, ?_, ?_, ?_, ?_⟩
  · intro h Encode now execFault queryFault r hv
    exact ⟨handleGenerate_valid h Encode now execFault queryFault r hv,
      handleGenerate_rows h Encode now execFault queryFault r⟩
  · intro h now fault r hv
    exact handleUpdateLabel_valid h now fault r hv
  · intro h fault r hv
    exact handleDelete_valid h fault r hv
  · intro g reqs
    exact serveAll_valid reqs ⟨storage.New, g⟩ hnew

end handler

namespace handler

theorem records_stay_valid_witness :
    (Handler.serveAll ⟨storage.New, qrcode.New⟩
      [.generate (fun _ _ _ => .ok (some [137, 80, 78, 71])) 9 none none
          ⟨.ok [("content", [" https://example.com "])], [], .error "EOF"⟩,
       .generate (fun _ _ _ => .ok none) 9 none none
          ⟨.ok [("content", ["nil image"])], [], .error "EOF"⟩,
       .generate (fun _ _ _ => .ok (some [137, 80, 78, 71])) 9 none none
          ⟨.ok [("content", ["   "])], [], .error "EOF"⟩,
       .updateLabel 10 none ⟨.error "no form", [("id", "1")], .ok "Updated"⟩]).store.db.rows
      = [⟨1, "https://example.com", "Updated", [137, 80, 78, 71], 9, 10⟩] ∧
    recordsValid (Handler.serveAll ⟨storage.New, qrcode.New⟩
      [.generate (fun _ _ _ => .ok (some [137, 80, 78, 71])) 9 none none
          ⟨.ok [("content", [" https://example.com "])], [], .error "EOF"⟩,
       .generate (fun _ _ _ => .ok none) 9 none none
          ⟨.ok [("content", ["nil image"])], [], .error "EOF"⟩,
       .generate (fun _ _ _ => .ok (some [137, 80, 78, 71])) 9 none none
          ⟨.ok [("content", ["   "])], [], .error "EOF"⟩,
       .updateLabel 10 none ⟨.error "no form", [("id", "1")], .ok "Updated"⟩]).store :=
  ⟨by rfl, records_stay_valid.2.2.2.2 qrcode.New _⟩

end handler

/-! ## The generator -/

namespace qrcode

/-- What both methods return for a non-empty content once the size is fixed: the
bytes of the encoder, or its error behind the text of the generator. -/
theorem Generate_eq (g : Generator) (Encode : qr.Encoder) (content : String)
    (hc : content ≠ "") :
    g.Generate Encode content =
      match Encode content qr.RecoveryLevel.Medium g.size with
      | .error e => .error ("failed to generate qr code: " ++ e)
      | .ok png => .ok png := by
  unfold Generator.Generate
  rw [if_neg hc]
  rfl

theorem GenerateWithSize_eq (g : Generator) (Encode : qr.Encoder) (content : String)
    (size : Int) (hc : content ≠ "") :
    g.GenerateWithSize Encode content size =
      match Encode content qr.RecoveryLevel.Medium (if size ≤ 0 then 256 else size) with
      | .error e => .error ("failed to generate qr code: " ++ e)
      | .ok png => .ok png := by
  unfold Generator.GenerateWithSize
  rw [if_neg hc]
  rfl

/-- C12.  For the generator `New()` returns and every encoder: `Generate("")` and
`GenerateWithSize("", size)` return the error "content cannot be empty" for
every size, whatever the encoder would do, so without consulting it; and for
every non-empty content and every size <= 0, `GenerateWithSize(content, size)`
returns the same result as `GenerateWithSize(content, 256)` and as
`Generate(content)`, namely what the encoder gives for (content, Medium
recovery level, 256 pixels): its bytes, or its error behind the text
"failed to generate qr code: ". -/
theorem Generate_default_size (Encode : qr.Encoder) :
    New.Generate Encode "" = .error "content cannot be empty" ∧
    (∀ size : Int, New.GenerateWithSize Encode "" size = .error "content cannot be empty") ∧
    (∀ (content : String) (size : Int), content ≠ "" → size ≤ 0 →
      New.GenerateWithSize Encode content size = New.GenerateWithSize Encode content 256 ∧
      New.GenerateWithSize Encode content size = New.Generate Encode content ∧
      New.Generate Encode content =
        (match Encode content qr.RecoveryLevel.Medium 256 with
          | .error e => .error ("failed to generate qr code: " ++ e)
          | .ok png => .ok png) ∧
      (∀ png, Encode content qr.RecoveryLevel.Medium 256 = .ok png →
        New.GenerateWithSize Encode content size = .ok png)) := by
  refine ⟨rfl, fun _ => rfl, ?_⟩
  intro content size hc hs
  have h1 : New.GenerateWithSize Encode content size =
      (match Encode content qr.RecoveryLevel.Medium 256 with
        | .error e => .error ("failed to generate qr code: " ++ e)
        | .ok png => .ok png) := by
    rw [GenerateWithSize_eq New Encode content size hc, if_pos hs]
  have h2 : New.GenerateWithSize Encode content 256 =
      (match Encode content qr.RecoveryLevel.Medium 256 with
        | .error e => .error ("failed to generate qr code: " ++ e)
        | .ok png => .ok png) := by
    rw [GenerateWithSize_eq New Encode content 256 hc, if_neg (by decide)]
  have h3 : New.Generate Encode content =
      (match Encode content qr.RecoveryLevel.Medium 256 with
        | .error e => .error ("failed to generate qr code: " ++ e)
        | .ok png => .ok png) := Generate_eq New Encode content hc
  refine ⟨h1.trans h2.symm, h1.trans h3.symm, h3, ?_⟩
  intro png hpng
  rw [h1, hpng]

theorem Generate_default_size_witness :
    ("https://example.com" : String) ≠ "" ∧ (-5 : Int) ≤ 0 ∧
    New.GenerateWithSize (fun content _ size =>
        if size = 256 then .ok (some content.toUTF8.toList) else .error "unexpected size")
      "https://example.com" (-5)
      = New.Generate (fun content _ size =>
          if size = 256 then .ok (some content.toUTF8.toList) else .error "unexpected size")
        "https://example.com" :=
  ⟨by decide, by decide,
   ((Generate_default_size (fun content _ size =>
        if size = 256 then .ok (some content.toUTF8.toList) else .error "unexpected size")).2.2
      "https://example.com" (-5) (by decide) (by decide)).2.1⟩

end qrcode
